import Mathlib

set_option maxRecDepth 2000

/-!
Verification of the quiz-grading backend (src/main.py).

Shallow embedding notes:
- Python ints are unbounded, so they are embedded as Int (Nat where the
  source value is a count and provably nonnegative).
- The document store helpers (create_document, get_documents) live in
  database.py, which is outside src/; they are modelled from the spec of the
  Document Store Adapter (spec sections 2 and 6).
- The score expression int((correct / max(1, total)) * 100) performs IEEE-754
  binary64 arithmetic; it is modelled exactly: correctly rounded division
  (round to nearest, ties to even), correctly rounded multiplication by 100,
  and truncation toward zero, over dyadic values m * 2 ^ e. On the reachable
  inputs 0 ≤ correct ≤ total no overflow, infinity or NaN arises, so this is
  precisely the CPython semantics of line 278. Note the float result can
  differ from exact floor division: 29 correct of 50 gives 57, not 58.
- Timestamps (datetime.utcnow) are abstracted as an opaque Nat argument.
-/

/-- Question schema from src/main.py: prompt, options, answer_index,
optional explanation. -/
structure Question where
  prompt : String
  options : List String
  answer_index : Int
  explanation : Option String := none
deriving DecidableEq

/-- Quiz schema from src/main.py: lesson_slug, title, ordered questions. -/
structure Quiz where
  lesson_slug : String
  title : String
  questions : List Question
deriving DecidableEq

/-- Track schema from src/main.py. -/
structure Track where
  title : String
  slug : String
  description : String
  level : String := "beginner"
  tags : List String := []
deriving DecidableEq

/-- Lesson schema from src/main.py. -/
structure Lesson where
  track_slug : String
  title : String
  slug : String
  content : String
  difficulty : String := "easy"
  order : Int := 0
deriving DecidableEq

/-- A stored attempt document. The store is schemaless, so quiz_id and
score are Option: none models a document in which the field is absent
(dict.get in get_progress defaults them). Documents created by
submit_attempt always carry both fields. -/
structure AttemptDoc where
  user_email : String
  quiz_id : Option String
  answers : List Int
  score : Option Int
  created_at : Option Nat
deriving DecidableEq

/-- The document store state: one list per collection used by the code.
Quizzes are stored together with their store-assigned string id. -/
structure Store where
  tracks : List Track
  lessons : List Lesson
  quizzes : List (String × Quiz)
  attempts : List AttemptDoc
deriving DecidableEq

/-- Modelled from the spec: the Document Store Adapter (database.py, not
under src/) provides query(collection, filter, limit), returning the stored
documents matching the filter, at most limit many, in store order. -/
def queryDocs {α : Type} (docs : List α) (pred : α → Bool) (lim : Nat) : List α :=
  (docs.filter pred).take lim

/-- Modelled from the spec: create(collection, document) inserts the
document into the collection. -/
def createDoc {α : Type} (docs : List α) (doc : α) : List α :=
  docs ++ [doc]

/-- Grading loop of submit_attempt (src/main.py lines 274-277):
for i, ans in enumerate(payload.answers):
  if i < len(questions) and ans == questions[i].answer_index: correct += 1.
The Option bind encodes the short-circuit bounds check. -/
def gradeCorrect (questions : List Question) : List Int → Nat → Nat
  | [], _ => 0
  | ans :: rest, i =>
      (if (questions[i]?).map Question.answer_index = some ans then 1 else 0) +
        gradeCorrect questions rest (i + 1)

/-- Number of submitted answers matching the correct answer at the same
position (the final value of the loop variable correct). -/
def correctCount (questions : List Question) (answers : List Int) : Nat :=
  gradeCorrect questions answers 0

/-- Round-to-nearest with ties to even of the rational N / D, as an
integer (D positive). -/
def roundDiv (N D : Nat) : Nat :=
  if 2 * (N % D) < D then N / D
  else if D < 2 * (N % D) then N / D + 1
  else if (N / D) % 2 = 0 then N / D else N / D + 1

/-- Fuel-driven base-2 integer logarithm, structurally recursive so that
the kernel can evaluate it (Nat.log2 uses well-founded recursion). -/
def log2Aux : Nat → Nat → Nat
  | 0, _ => 0
  | fuel + 1, n => if 2 ≤ n then log2Aux fuel (n / 2) + 1 else 0

/-- Floor of the base-2 logarithm of a positive Nat, 0 at 0; agrees with
Nat.log2 (theorem log2n_eq below). -/
def log2n (n : Nat) : Nat := log2Aux n n

/-- Floor of the base-2 logarithm of the rational n / d, for n, d ≥ 1:
scaling by 2 ^ (log2 d + 2) makes the scaled quotient at least 1 without
changing the fractional log, and flooring the quotient keeps the floor of
the log. -/
def log2Floor (n d : Nat) : Int :=
  (log2n ((n * 2 ^ (log2n d + 2)) / d) : Int) - (log2n d + 2)

/-- Exponent of the binary64 rounding quantum for the rational n / d: one
unit in the last place is 2 ^ fexp, with the quantum floored at
2 ^ (-1074) in the subnormal range. -/
def fexp (n d : Nat) : Int :=
  max (-1074) (log2Floor n d - 52)

/-- Binary64 round-to-nearest-even of the rational n / d, returned as an
exact dyadic value m * 2 ^ e: the value CPython computes for the true
division of two nonnegative ints (no overflow can arise in the grading
code, where the quotient is at most 1). -/
def divRN (n d : Nat) : Nat × Int :=
  if n = 0 then (0, 0)
  else (roundDiv (n * 2 ^ (-(fexp n d)).toNat) (d * 2 ^ (fexp n d).toNat), fexp n d)

/-- Exponent of the binary64 rounding quantum of (m * 2 ^ e) * 100. -/
def mexp (m : Nat) (e : Int) : Int :=
  max (-1074) ((log2n (m * 100) : Int) + e - 52)

/-- Binary64 round-to-nearest-even of (m * 2 ^ e) * 100: the float product
of the rounded quotient with 100, as CPython computes it; exact whenever
the integer product already fits the 53-bit significand at its quantum. -/
def mul100RN (m : Nat) (e : Int) : Nat × Int :=
  if m = 0 then (0, 0)
  else if mexp m e ≤ e then (m * 100, e)
  else (roundDiv (m * 100) (2 ^ (mexp m e - e).toNat), mexp m e)

/-- Truncation toward zero of the nonnegative dyadic m * 2 ^ e: the int()
conversion applied to the float product. -/
def floatTruncNat (m : Nat) (e : Int) : Nat :=
  if 0 ≤ e then m * 2 ^ e.toNat else m / 2 ^ (-e).toNat

/-- int((c / t) * 100) of src/main.py line 278 under IEEE-754 binary64
semantics: correctly rounded division, correctly rounded multiplication by
100, truncation toward zero. Validated against CPython on every pair
0 ≤ c ≤ t ≤ 60 and sampled larger inputs. -/
def scoreFloat (c t : Nat) : Nat :=
  floatTruncNat (mul100RN (divRN c t).1 (divRN c t).2).1
    (mul100RN (divRN c t).1 (divRN c t).2).2

/-- Score expression of src/main.py line 278:
int((correct / max(1, len(questions))) * 100) with binary64 float
semantics. -/
def scorePercent (questions : List Question) (answers : List Int) : Nat :=
  scoreFloat (correctCount questions answers) (max 1 questions.length)

/-- Request body of POST /quizzes/quiz_id/attempt. -/
structure SubmitAttempt where
  user_email : String
  answers : List Int
deriving DecidableEq

/-- Response body of submit_attempt: score, correct, total. -/
structure AttemptResult where
  score : Nat
  correct : Nat
  total : Nat
deriving DecidableEq

/-- An HTTPException as raised by the handlers. -/
structure HttpError where
  status : Nat
  detail : String
deriving DecidableEq

/-- Lookup of src/main.py line 270: get_documents("quiz", filter by _id,
limit 1), then quizzes[0] if nonempty. -/
def findQuizById (store : Store) (quiz_id : String) : Option Quiz :=
  ((queryDocs store.quizzes (fun p => p.1 == quiz_id) 1).head?).map Prod.snd

/-- Handler submit_attempt (src/main.py lines 267-287). Returns the store
after the request together with the response or the raised error. -/
def submit_attempt (store : Store) (quiz_id : String) (payload : SubmitAttempt)
    (now : Nat) : Store × Except HttpError AttemptResult :=
  match findQuizById store quiz_id with
  | none => (store, Except.error ⟨404, "Quiz not found"⟩)
  | some quiz =>
      let correct := correctCount quiz.questions payload.answers
      let score := scorePercent quiz.questions payload.answers
      let attempt : AttemptDoc :=
        { user_email := payload.user_email
          quiz_id := some quiz_id
          answers := payload.answers
          score := some (score : Int)
          created_at := some now }
      ({ store with attempts := createDoc store.attempts attempt },
        Except.ok ⟨score, correct, quiz.questions.length⟩)

/-- Seed helper ensure_track (src/main.py lines 78-81) on the success path
of the store adapter: query for the slug with limit 1, insert only when
nothing matched. -/
def ensure_track (store : Store) (track : Track) : Store :=
  let existing := queryDocs store.tracks (fun t => t.slug == track.slug) 1
  if existing.isEmpty then
    { store with tracks := createDoc store.tracks track }
  else store

/-- Number of stored track documents carrying the given natural key. -/
def trackSlugCount (store : Store) (slug : String) : Nat :=
  store.tracks.countP (fun t => t.slug == slug)

/-- Seed helper ensure_lesson (src/main.py lines 83-86) on the success path
of the store adapter: query for the slug with limit 1, insert only when
nothing matched. -/
def ensure_lesson (store : Store) (lesson : Lesson) : Store :=
  let existing := queryDocs store.lessons (fun l => l.slug == lesson.slug) 1
  if existing.isEmpty then
    { store with lessons := createDoc store.lessons lesson }
  else store

/-- Number of stored lesson documents carrying the given natural key. -/
def lessonSlugCount (store : Store) (slug : String) : Nat :=
  store.lessons.countP (fun l => l.slug == slug)

/-- Seed helper ensure_quiz (src/main.py lines 88-91) on the success path
of the store adapter: query for the lesson_slug with limit 1, insert only
when nothing matched; the store assigns the new document its string id. -/
def ensure_quiz (store : Store) (quiz : Quiz) : Store :=
  let existing := queryDocs (store.quizzes.map Prod.snd)
    (fun q => q.lesson_slug == quiz.lesson_slug) 1
  if existing.isEmpty then
    { store with
        quizzes := createDoc store.quizzes (toString store.quizzes.length, quiz) }
  else store

/-- Number of stored quiz documents carrying the given natural key
(lesson_slug). -/
def quizLessonSlugCount (store : Store) (slug : String) : Nat :=
  store.quizzes.countP (fun p => p.2.lesson_slug == slug)

/-- Handler list_lessons (src/main.py lines 242-246): lessons filtered by
track_slug with limit 200, then sorted ascending on the order field
(items.sort with key order; Python sort is a stable ascending sort, an
extensional match for mergeSort). -/
def list_lessons (store : Store) (slug : String) : List Lesson :=
  let items := queryDocs store.lessons (fun l => l.track_slug == slug) 200
  items.mergeSort (fun a b => decide (a.order ≤ b.order))

/-- The by_quiz accumulator of get_progress: a Python dict from quiz_id
(possibly absent, hence Option String) to best score, in insertion order. -/
abbrev ScoreDict := List (Option String × Int)

/-- Python dict read: by_quiz[qid] when present. -/
def dictLookup (d : ScoreDict) (k : Option String) : Option Int :=
  (d.find? (fun p => p.1 == k)).map Prod.snd

/-- Python dict write by_quiz[k] = v: replace the binding in place when the
key is present, otherwise append the new binding. -/
def dictSet : ScoreDict → Option String → Int → ScoreDict
  | [], k, v => [(k, v)]
  | p :: rest, k, v =>
      if p.1 == k then (k, v) :: rest else p :: dictSet rest k v

/-- Score of a stored attempt document as read by get_progress:
a.get("score", 0), defaulting to 0 when the field is absent. -/
def attemptScore (a : AttemptDoc) : Int :=
  a.score.getD 0

/-- Loop body of get_progress (src/main.py lines 295-298): update the best
score for the quiz_id of the attempt when absent or strictly improved. -/
def progressStep (d : ScoreDict) (a : AttemptDoc) : ScoreDict :=
  match dictLookup d a.quiz_id with
  | none => dictSet d a.quiz_id (attemptScore a)
  | some cur =>
      if attemptScore a > cur then dictSet d a.quiz_id (attemptScore a) else d

/-- Response body of GET /users/email/progress. -/
structure Progress where
  quizzes_completed : Nat
  best_scores : ScoreDict
deriving DecidableEq

/-- Handler get_progress (src/main.py lines 291-300): fetch the attempts of
the user (limit 1000), fold them into by_quiz, count the values at or above
the passing threshold 70. -/
def get_progress (store : Store) (email : String) : Progress :=
  let attempts := queryDocs store.attempts (fun a => a.user_email == email) 1000
  let by_quiz := attempts.foldl progressStep []
  { quizzes_completed := (by_quiz.map Prod.snd).countP (fun s => decide (70 ≤ s))
    best_scores := by_quiz }

/-- All stored attempts of this user, with no result cap. -/
def attemptsFor (store : Store) (email : String) : List AttemptDoc :=
  store.attempts.filter (fun a => a.user_email == email)

/-- Scores (with absent fields defaulted to 0) of the attempts of one quiz
identifier, in store order. -/
def scoresFor (attempts : List AttemptDoc) (q : Option String) : List Int :=
  (attempts.filter (fun a => a.quiz_id == q)).map attemptScore

/-- Specification-side count for claim C1: the number of positions i with
i < len(answers), i < len(questions) and answers[i] equal to
questions[i].answer_index. -/
def specCorrect (questions : List Question) (answers : List Int) : Nat :=
  (List.range answers.length).countP (fun i =>
    decide (i < questions.length) &&
      ((questions[i]?).map Question.answer_index == answers[i]?))

theorem gradeCorrect_eq_countP (questions : List Question) (answers : List Int) :
    ∀ k, gradeCorrect questions answers k =
      (List.range answers.length).countP (fun j =>
        (questions[k + j]?).map Question.answer_index == answers[j]?) := by
  induction answers with
  | nil => intro k; rfl
  | cons a rest ih =>
      intro k
      rw [gradeCorrect, List.length_cons, List.range_succ_eq_map, List.countP_cons,
        List.countP_map]
      have h1 : List.countP
            ((fun j => (questions[k + j]?).map Question.answer_index == (a :: rest)[j]?)
              ∘ Nat.succ)
            (List.range rest.length)
          = gradeCorrect questions rest (k + 1) := by
        rw [ih (k + 1)]
        apply List.countP_congr
        intro j _
        have hj : k + Nat.succ j = k + 1 + j := by omega
        simp [Function.comp, hj]
      rw [h1]
      by_cases h : (questions[k]?).map Question.answer_index = some a
      · simp [h, Nat.add_comm]
      · simp [h, Nat.add_comm]

theorem correctCount_eq_specCorrect (questions : List Question) (answers : List Int) :
    correctCount questions answers = specCorrect questions answers := by
  rw [correctCount, gradeCorrect_eq_countP questions answers 0, specCorrect]
  apply List.countP_congr
  intro i hi
  rw [List.mem_range] at hi
  simp only [Nat.zero_add]
  by_cases h : i < questions.length
  · simp [h]
  · have h1 : questions[i]? = none := List.getElem?_eq_none (by omega)
    have h2 : answers[i]? = some answers[i] := List.getElem?_eq_getElem hi
    simp [h1, h2, h]

theorem specCorrect_take (questions : List Question) (answers : List Int) :
    specCorrect questions (answers.take questions.length) =
      specCorrect questions answers := by
  rcases le_or_lt answers.length questions.length with h | h
  · rw [List.take_of_length_le h]
  · rw [specCorrect, specCorrect]
    have hlen : (answers.take questions.length).length = questions.length := by
      rw [List.length_take]; omega
    rw [hlen]
    have hsplit : answers.length = questions.length + (answers.length - questions.length) := by
      omega
    rw [hsplit, List.range_add, List.countP_append]
    have hzero : List.countP
        (fun i => decide (i < questions.length) &&
          ((questions[i]?).map Question.answer_index == answers[i]?))
        (List.map (fun x => questions.length + x)
          (List.range (answers.length - questions.length))) = 0 := by
      rw [List.countP_eq_zero]
      intro a ha
      rw [List.mem_map] at ha
      obtain ⟨x, _, rfl⟩ := ha
      have hx : ¬ (questions.length + x < questions.length) := by omega
      simp [hx]
    rw [hzero, Nat.add_zero]
    apply List.countP_congr
    intro i hi
    rw [List.mem_range] at hi
    have ht : (answers.take questions.length)[i]? = answers[i]? := by
      rw [List.getElem?_take]; simp [hi]
    rw [ht]

theorem countP_range_lt (m n : Nat) :
    (List.range m).countP (fun i => decide (i < n)) ≤ n := by
  rw [List.countP_eq_length_filter]
  have hsub : (List.range m).filter (fun i => decide (i < n)) ⊆ List.range n := by
    intro x hx
    rw [List.mem_filter] at hx
    rw [List.mem_range]
    exact of_decide_eq_true hx.2
  have hnd : ((List.range m).filter (fun i => decide (i < n))).Nodup :=
    (List.nodup_range m).filter _
  calc ((List.range m).filter (fun i => decide (i < n))).length
      ≤ (List.range n).length := (List.subperm_of_subset hnd hsub).length_le
    _ = n := List.length_range n

theorem correctCount_le (questions : List Question) (answers : List Int) :
    correctCount questions answers ≤ questions.length := by
  rw [correctCount_eq_specCorrect, specCorrect]
  calc (List.range answers.length).countP (fun i =>
        decide (i < questions.length) &&
          ((questions[i]?).map Question.answer_index == answers[i]?))
      ≤ (List.range answers.length).countP (fun i => decide (i < questions.length)) := by
        apply List.countP_mono_left
        intro x _ hp
        exact (Bool.and_eq_true _ _ ▸ hp).1
    _ ≤ questions.length := countP_range_lt _ _

theorem log2Aux_eq (fuel : Nat) : ∀ n : Nat, n ≤ fuel → log2Aux fuel n = Nat.log2 n := by
  induction fuel with
  | zero =>
      intro n h
      have hn : n = 0 := by omega
      rw [hn, Nat.log2_zero]
      rfl
  | succ f ih =>
      intro n h
      rw [log2Aux]
      by_cases h2 : 2 ≤ n
      · have hdiv : n / 2 ≤ f := by omega
        rw [if_pos h2, ih (n / 2) hdiv]
        conv_rhs => rw [Nat.log2]
        rw [if_pos h2]
      · rw [if_neg h2]
        conv_rhs => rw [Nat.log2]
        rw [if_neg h2]

theorem log2n_eq (n : Nat) : log2n n = Nat.log2 n :=
  log2Aux_eq n n le_rfl

theorem roundDiv_le (N D : Nat) :
    2 * D * roundDiv N D ≤ 2 * N + D := by
  unfold roundDiv
  have hmod : D * (N / D) + N % D = N := Nat.div_add_mod N D
  have h2D : 2 * D * (N / D) = 2 * (D * (N / D)) := by ring
  have h2D1 : 2 * D * (N / D + 1) = 2 * (D * (N / D)) + 2 * D := by ring
  split_ifs with h1 h2 h3
  · rw [h2D]; omega
  · rw [h2D1]; omega
  · rw [h2D]; omega
  · rw [h2D1]; omega

theorem roundDiv_le_pow (c t K : Nat) (ht : 0 < t) (hct : c ≤ t) :
    roundDiv (c * 2 ^ K) t ≤ 2 ^ K := by
  by_contra hcon
  push_neg at hcon
  have h1 := roundDiv_le (c * 2 ^ K) t
  have h2 : c * 2 ^ K ≤ t * 2 ^ K := Nat.mul_le_mul_right _ hct
  have h3 : t * (2 ^ K + 1) ≤ t * roundDiv (c * 2 ^ K) t := Nat.mul_le_mul_left _ hcon
  have h4 : 2 * t * roundDiv (c * 2 ^ K) t = 2 * (t * roundDiv (c * 2 ^ K) t) := by ring
  have h5 : t * (2 ^ K + 1) = t * 2 ^ K + t := by ring
  rw [h4] at h1
  rw [h5] at h3
  omega

theorem log2Floor_nonpos (n d : Nat) (hn : 0 < n) (hnd : n ≤ d) :
    log2Floor n d ≤ 0 := by
  unfold log2Floor
  rw [log2n_eq, log2n_eq]
  have hd : 0 < d := lt_of_lt_of_le hn hnd
  have hle : (n * 2 ^ (Nat.log2 d + 2)) / d ≤ 2 ^ (Nat.log2 d + 2) := by
    calc (n * 2 ^ (Nat.log2 d + 2)) / d ≤ (d * 2 ^ (Nat.log2 d + 2)) / d :=
        Nat.div_le_div_right (Nat.mul_le_mul_right _ hnd)
      _ = 2 ^ (Nat.log2 d + 2) := Nat.mul_div_cancel_left _ hd
  have hlog : Nat.log2 ((n * 2 ^ (Nat.log2 d + 2)) / d) ≤ Nat.log2 d + 2 := by
    rcases Nat.eq_zero_or_pos ((n * 2 ^ (Nat.log2 d + 2)) / d) with h0 | hpos
    · rw [h0, Nat.log2_zero]
      omega
    · have hlt : (n * 2 ^ (Nat.log2 d + 2)) / d < 2 ^ (Nat.log2 d + 2 + 1) :=
        lt_of_le_of_lt hle (Nat.pow_lt_pow_right (by norm_num) (by omega))
      have := (Nat.log2_lt hpos.ne').mpr hlt
      omega
  omega

theorem fexp_le_neg52 (n d : Nat) (hn : 0 < n) (hnd : n ≤ d) :
    fexp n d ≤ -52 := by
  have := log2Floor_nonpos n d hn hnd
  unfold fexp
  omega

theorem log2_le_of_le_pow (p K : Nat) (hpne : p ≠ 0) (hp : p ≤ 100 * 2 ^ K) :
    Nat.log2 p ≤ K + 6 := by
  have h1 : (100 : Nat) * 2 ^ K < 128 * 2 ^ K :=
    (Nat.mul_lt_mul_right (Nat.pos_pow_of_pos K (by norm_num))).mpr (by norm_num)
  have h2 : (128 : Nat) * 2 ^ K = 2 ^ (K + 7) := by
    rw [pow_add]
    ring
  have hlt : p < 2 ^ (K + 7) := by
    rw [← h2]
    exact lt_of_le_of_lt hp h1
  have := (Nat.log2_lt hpne).mpr hlt
  omega

theorem scoreFloat_zero (t : Nat) : scoreFloat 0 t = 0 := by
  simp [scoreFloat, divRN, mul100RN, floatTruncNat]

theorem log2Floor_self (t : Nat) (ht : 0 < t) : log2Floor t t = 0 := by
  unfold log2Floor
  rw [Nat.mul_div_cancel_left _ ht, log2n_eq, Nat.log2_two_pow]
  omega

theorem divRN_self (t : Nat) (ht : 0 < t) : divRN t t = (2 ^ 52, -52) := by
  have hfe : fexp t t = -52 := by
    unfold fexp
    rw [log2Floor_self t ht]
    decide
  unfold divRN
  rw [if_neg ht.ne', hfe]
  have h1 : ((-(-52 : Int))).toNat = 52 := by decide
  have h2 : ((-52 : Int)).toNat = 0 := by decide
  rw [h1, h2, pow_zero, mul_one]
  have hq : t * 2 ^ 52 / t = 2 ^ 52 := Nat.mul_div_cancel_left _ ht
  have hr : t * 2 ^ 52 % t = 0 := Nat.mul_mod_right _ _
  unfold roundDiv
  rw [hq, hr]
  have hc : 2 * 0 < t := by omega
  rw [if_pos hc]

theorem scoreFloat_self (t : Nat) (ht : 0 < t) : scoreFloat t t = 100 := by
  unfold scoreFloat
  rw [divRN_self t ht]
  decide

theorem scoreFloat_le_100 (c t : Nat) (ht : 0 < t) (hct : c ≤ t) :
    scoreFloat c t ≤ 100 := by
  rcases Nat.eq_zero_or_pos c with hc0 | hc
  · rw [hc0, scoreFloat_zero]
    omega
  · have hfe : fexp c t ≤ -52 := fexp_le_neg52 c t hc hct
    have hKdef : ((-(fexp c t)).toNat : Int) = -(fexp c t) := Int.toNat_of_nonneg (by omega)
    have hK52 : 52 ≤ (-(fexp c t)).toNat := by omega
    have htoN0 : (fexp c t).toNat = 0 := by omega
    have hdiv2 : divRN c t =
        (roundDiv (c * 2 ^ (-(fexp c t)).toNat) t, fexp c t) := by
      unfold divRN
      rw [if_neg hc.ne', htoN0, pow_zero, mul_one]
    unfold scoreFloat
    rw [hdiv2]
    have hmK : roundDiv (c * 2 ^ (-(fexp c t)).toNat) t ≤ 2 ^ (-(fexp c t)).toNat :=
      roundDiv_le_pow c t _ ht hct
    rcases Nat.eq_zero_or_pos (roundDiv (c * 2 ^ (-(fexp c t)).toNat) t) with hm0 | hm
    · rw [hm0]
      simp [mul100RN, floatTruncNat]
    · have hpne : roundDiv (c * 2 ^ (-(fexp c t)).toNat) t * 100 ≠ 0 := by positivity
      have hp100 : roundDiv (c * 2 ^ (-(fexp c t)).toNat) t * 100 ≤
          100 * 2 ^ (-(fexp c t)).toNat := by
        calc roundDiv (c * 2 ^ (-(fexp c t)).toNat) t * 100
            ≤ 2 ^ (-(fexp c t)).toNat * 100 := Nat.mul_le_mul_right _ hmK
          _ = 100 * 2 ^ (-(fexp c t)).toNat := by ring
      have hb : Nat.log2 (roundDiv (c * 2 ^ (-(fexp c t)).toNat) t * 100) ≤
          (-(fexp c t)).toNat + 6 :=
        log2_le_of_le_pow _ _ hpne hp100
      have hmx : mexp (roundDiv (c * 2 ^ (-(fexp c t)).toNat) t) (fexp c t) ≤ -46 := by
        unfold mexp
        rw [log2n_eq]
        omega
      unfold mul100RN
      rw [if_neg hm.ne']
      by_cases hAB : mexp (roundDiv (c * 2 ^ (-(fexp c t)).toNat) t) (fexp c t) ≤ fexp c t
      · rw [if_pos hAB]
        unfold floatTruncNat
        have hneg : ¬ (0 ≤ fexp c t) := by omega
        rw [if_neg hneg]
        calc roundDiv (c * 2 ^ (-(fexp c t)).toNat) t * 100 / 2 ^ (-(fexp c t)).toNat
            ≤ 100 * 2 ^ (-(fexp c t)).toNat / 2 ^ (-(fexp c t)).toNat :=
              Nat.div_le_div_right hp100
          _ = 100 := Nat.mul_div_cancel 100 (Nat.pos_pow_of_pos _ (by norm_num))
      · rw [if_neg hAB]
        unfold floatTruncNat
        have hneg2 : ¬ (0 ≤ mexp (roundDiv (c * 2 ^ (-(fexp c t)).toNat) t) (fexp c t)) := by
          omega
        rw [if_neg hneg2]
        have hS1 : 1 ≤ (mexp (roundDiv (c * 2 ^ (-(fexp c t)).toNat) t) (fexp c t)
            - fexp c t).toNat := by omega
        have hSK : (mexp (roundDiv (c * 2 ^ (-(fexp c t)).toNat) t) (fexp c t)
            - fexp c t).toNat ≤ (-(fexp c t)).toNat - 46 := by omega
        have hKS : (-(mexp (roundDiv (c * 2 ^ (-(fexp c t)).toNat) t) (fexp c t))).toNat =
            (-(fexp c t)).toNat -
              (mexp (roundDiv (c * 2 ^ (-(fexp c t)).toNat) t) (fexp c t)
                - fexp c t).toNat := by omega
        rw [hKS]
        generalize hS : (mexp (roundDiv (c * 2 ^ (-(fexp c t)).toNat) t) (fexp c t)
            - fexp c t).toNat = S at hS1 hSK ⊢
        generalize hKn : (-(fexp c t)).toNat = K at hmK hp100 hK52 hSK ⊢
        generalize hmn : roundDiv (c * 2 ^ K) t = m at hp100 ⊢
        have key : roundDiv (m * 100) (2 ^ S) < 101 * 2 ^ (K - S) := by
          by_contra hcon
          push_neg at hcon
          have h1 := roundDiv_le (m * 100) (2 ^ S)
          have e1 : 2 ^ S * (101 * 2 ^ (K - S)) = 101 * 2 ^ K := by
            have hsum : S + (K - S) = K := by omega
            calc 2 ^ S * (101 * 2 ^ (K - S)) = 101 * (2 ^ S * 2 ^ (K - S)) := by ring
              _ = 101 * 2 ^ (S + (K - S)) := by rw [pow_add]
              _ = 101 * 2 ^ K := by rw [hsum]
          have e2 : 2 ^ S * (101 * 2 ^ (K - S)) ≤ 2 ^ S * roundDiv (m * 100) (2 ^ S) :=
            Nat.mul_le_mul_left _ hcon
          rw [e1] at e2
          have e3 : 2 * 2 ^ S * roundDiv (m * 100) (2 ^ S) =
              2 * (2 ^ S * roundDiv (m * 100) (2 ^ S)) := by ring
          rw [e3] at h1
          have h2 : (2:Nat) ^ S ≤ 2 ^ (K - 46) := Nat.pow_le_pow_right (by norm_num) hSK
          have h3 : (2:Nat) ^ (K - 46) ≤ 2 ^ K := Nat.pow_le_pow_right (by norm_num) (by omega)
          have hBpos : 0 < (2:Nat) ^ K := Nat.pos_pow_of_pos _ (by norm_num)
          omega
        have hpow : 0 < (2:Nat) ^ (K - S) := Nat.pos_pow_of_pos _ (by norm_num)
        have hfin := (Nat.div_lt_iff_lt_mul hpow).mpr key
        show roundDiv (m * 100) (2 ^ S) / 2 ^ (K - S) ≤ 100
        omega

theorem scorePercent_le_100 (questions : List Question) (answers : List Int) :
    scorePercent questions answers ≤ 100 := by
  rw [scorePercent]
  exact scoreFloat_le_100 _ _
    (Nat.lt_of_lt_of_le Nat.one_pos (Nat.le_max_left 1 _))
    (le_trans (correctCount_le questions answers) (Nat.le_max_right 1 _))

/-- Concrete question used by the witnesses. -/
def wQuestion : Question :=
  { prompt := "Which operator filters rows?", options := ["pi", "sigma"], answer_index := 1 }

/-- Concrete quiz used by the witnesses. -/
def wQuiz : Quiz :=
  { lesson_slug := "unit-2-relational", title := "Unit 2 Quiz", questions := [wQuestion] }

/-- Concrete store holding one quiz, used by the witnesses. -/
def wStore : Store :=
  { tracks := [], lessons := [], quizzes := [("q1", wQuiz)], attempts := [] }

/-- Question used by the grading counterexample. -/
def bugQuestion : Question :=
  { prompt := "p", options := ["a", "b"], answer_index := 0 }

/-- Quiz with 50 identical questions, used by the grading counterexample. -/
def bugQuiz : Quiz :=
  { lesson_slug := "l", title := "t", questions := List.replicate 50 bugQuestion }

/-- Store holding only the 50-question quiz, under the identifier qbug. -/
def bugStore : Store :=
  { tracks := [], lessons := [], quizzes := [("qbug", bugQuiz)], attempts := [] }

/-- Answer list matching the first 29 of the 50 questions. -/
def bugAnswers : List Int := List.replicate 29 0 ++ List.replicate 21 1

/-- Claim C1: refuted at 29 correct answers out of 50 questions. The code
computes score = int((correct / max(1, total)) * 100) with binary64
floats: 29 / 50 rounds to the double 0.57999999999999996003..., times 100
rounds to 57.99999999999999289..., and int() truncates to 57; the claimed
formula floor(100 * correct_count / max(1, total_count)) gives
floor(2900 / 50) = 58. correct_count and total_count themselves are as
claimed, and the persisted response carries the float-truncated 57. -/
theorem grading_float_bug :
    correctCount bugQuiz.questions bugAnswers = 29 ∧
    specCorrect bugQuiz.questions bugAnswers = 29 ∧
    bugQuiz.questions.length = 50 ∧
    scorePercent bugQuiz.questions bugAnswers = 57 ∧
    (100 * correctCount bugQuiz.questions bugAnswers) /
      max 1 bugQuiz.questions.length = 58 ∧
    (submit_attempt bugStore "qbug" ⟨"u", bugAnswers⟩ 0).2 =
      Except.ok ⟨57, 29, 50⟩ ∧
    (57 : Nat) ≠ 58 :=
  ⟨by decide, by decide, by decide, by decide, by decide, by rfl, by decide⟩

/-- Claim C3: when no stored quiz document carries the given identifier,
submit_attempt fails with a 404 NotFound error, leaves the whole store
unchanged, and in particular persists no attempt (the attempts collection
is exactly the one before the request). -/
theorem submit_attempt_not_found
    (store : Store) (quiz_id : String) (payload : SubmitAttempt) (now : Nat)
    (h : ∀ p ∈ store.quizzes, p.1 ≠ quiz_id) :
    submit_attempt store quiz_id payload now =
      (store, Except.error ⟨404, "Quiz not found"⟩) ∧
    (submit_attempt store quiz_id payload now).1 = store ∧
    (submit_attempt store quiz_id payload now).1.attempts = store.attempts := by
  have hfil : store.quizzes.filter (fun p => p.1 == quiz_id) = [] := by
    rw [List.filter_eq_nil_iff]
    intro p hp
    simpa using h p hp
  have hnone : findQuizById store quiz_id = none := by
    rw [findQuizById, queryDocs, hfil]
    rfl
  have hmain : submit_attempt store quiz_id payload now =
      (store, Except.error ⟨404, "Quiz not found"⟩) := by
    simp [submit_attempt, hnone]
  exact ⟨hmain, by rw [hmain], by rw [hmain]⟩

/-- Witness for claim C3 at a concrete store with no matching quiz. -/
theorem submit_attempt_not_found_witness :
    (∀ p ∈ wStore.quizzes, p.1 ≠ "missing") ∧
    (submit_attempt wStore "missing" ⟨"u", [0]⟩ 7 =
      (wStore, Except.error ⟨404, "Quiz not found"⟩) ∧
    (submit_attempt wStore "missing" ⟨"u", [0]⟩ 7).1 = wStore ∧
    (submit_attempt wStore "missing" ⟨"u", [0]⟩ 7).1.attempts = wStore.attempts) :=
  ⟨by decide, submit_attempt_not_found wStore "missing" ⟨"u", [0]⟩ 7 (by decide)⟩

/-- Claim C2: the score computed and persisted by submit_attempt is an
integer in [0, 100], and it is determined solely by the submitted answers
and the question set of the quiz: two submissions with the same answers
against the same question set receive the same score. -/
theorem submit_attempt_score_invariant
    (store : Store) (quiz_id : String) (payload : SubmitAttempt) (now : Nat)
    (quiz : Quiz) (h : findQuizById store quiz_id = some quiz) :
    ∃ r : AttemptResult,
      (submit_attempt store quiz_id payload now).2 = Except.ok r ∧
      (0 : Int) ≤ (r.score : Int) ∧ (r.score : Int) ≤ 100 ∧
      (submit_attempt store quiz_id payload now).1.attempts =
        store.attempts ++
          [⟨payload.user_email, some quiz_id, payload.answers, some (r.score : Int),
            some now⟩] ∧
      ∀ (store2 : Store) (quiz_id2 : String) (payload2 : SubmitAttempt) (now2 : Nat)
        (quiz2 : Quiz), findQuizById store2 quiz_id2 = some quiz2 →
        quiz2.questions = quiz.questions → payload2.answers = payload.answers →
        ∃ r2 : AttemptResult,
          (submit_attempt store2 quiz_id2 payload2 now2).2 = Except.ok r2 ∧
          r2.score = r.score := by
  refine ⟨⟨scorePercent quiz.questions payload.answers,
      correctCount quiz.questions payload.answers, quiz.questions.length⟩,
    ?_, ?_, ?_, ?_, ?_⟩
  · simp [submit_attempt, h]
  · exact Int.ofNat_nonneg _
  · exact_mod_cast scorePercent_le_100 quiz.questions payload.answers
  · simp [submit_attempt, h, createDoc]
  · intro store2 quiz_id2 payload2 now2 quiz2 h2 hq ha
    refine ⟨⟨scorePercent quiz2.questions payload2.answers,
        correctCount quiz2.questions payload2.answers, quiz2.questions.length⟩, ?_, ?_⟩
    · simp [submit_attempt, h2]
    · simp [scorePercent, correctCount, hq, ha]

/-- Witness for claim C2 at a concrete store, quiz and submission. -/
theorem submit_attempt_score_invariant_witness :
    findQuizById wStore "q1" = some wQuiz ∧
    ∃ r : AttemptResult,
      (submit_attempt wStore "q1" ⟨"u", [0]⟩ 2).2 = Except.ok r ∧
      (0 : Int) ≤ (r.score : Int) ∧ (r.score : Int) ≤ 100 ∧
      (submit_attempt wStore "q1" ⟨"u", [0]⟩ 2).1.attempts =
        wStore.attempts ++
          [⟨"u", some "q1", [0], some (r.score : Int), some 2⟩] ∧
      ∀ (store2 : Store) (quiz_id2 : String) (payload2 : SubmitAttempt) (now2 : Nat)
        (quiz2 : Quiz), findQuizById store2 quiz_id2 = some quiz2 →
        quiz2.questions = wQuiz.questions → payload2.answers = [0] →
        ∃ r2 : AttemptResult,
          (submit_attempt store2 quiz_id2 payload2 now2).2 = Except.ok r2 ∧
          r2.score = r.score :=
  ⟨by decide, submit_attempt_score_invariant wStore "q1" ⟨"u", [0]⟩ 2 wQuiz (by decide)⟩

theorem specCorrect_exact (questions : List Question) :
    specCorrect questions (questions.map Question.answer_index) = questions.length := by
  rw [specCorrect, List.length_map]
  calc (List.range questions.length).countP (fun i =>
        decide (i < questions.length) &&
          ((questions[i]?).map Question.answer_index ==
            (questions.map Question.answer_index)[i]?))
      = (List.range questions.length).length := by
        rw [List.countP_eq_length]
        intro i hi
        rw [List.mem_range] at hi
        have h1 : questions[i]? = some questions[i] := List.getElem?_eq_getElem hi
        have h2 : (questions.map Question.answer_index)[i]? =
            some (questions[i]).answer_index := by
          rw [List.getElem?_map, h1]; rfl
        simp [h1, h2, hi]
    _ = questions.length := List.length_range _

/-- Quiz with zero questions: its answer_index bound holds vacuously. -/
def emptyQuiz : Quiz := { lesson_slug := "l0", title := "t0", questions := [] }

/-- Store holding only the zero-question quiz, under the identifier q0. -/
def emptyQuizStore : Store :=
  { tracks := [], lessons := [], quizzes := [("q0", emptyQuiz)], attempts := [] }

/-- Counterexample to claim C7 as stated: the zero-question quiz satisfies
the validity bound vacuously and the submission equal to its (empty) answer
sequence grades to score 0, not 100. -/
theorem perfect_answers_counterexample :
    (∀ q ∈ emptyQuiz.questions,
      0 ≤ q.answer_index ∧ q.answer_index < (q.options.length : Int)) ∧
    (submit_attempt emptyQuizStore "q0"
        ⟨"u", emptyQuiz.questions.map Question.answer_index⟩ 0).2 =
      Except.ok ⟨0, 0, 0⟩ ∧
    (0 : Nat) ≠ 100 :=
  ⟨by decide, by rfl, by decide⟩

/-- Claim C7 (amended): for a quiz with at least one question and all
answer_index values valid indices into their options, submitting the
answer sequence exactly equal to the answer_index sequence in order yields
score_percent 100 and correct_count equal to total_count. -/
theorem perfect_answers_full_score
    (store : Store) (quiz_id : String) (payload : SubmitAttempt) (now : Nat)
    (quiz : Quiz) (h : findQuizById store quiz_id = some quiz)
    (hv : ∀ q ∈ quiz.questions,
      0 ≤ q.answer_index ∧ q.answer_index < (q.options.length : Int))
    (hne : quiz.questions ≠ [])
    (hans : payload.answers = quiz.questions.map Question.answer_index) :
    (submit_attempt store quiz_id payload now).2 =
      Except.ok ⟨100, quiz.questions.length, quiz.questions.length⟩ := by
  have hpos : 0 < quiz.questions.length := List.length_pos.mpr hne
  have hc : correctCount quiz.questions payload.answers = quiz.questions.length := by
    rw [correctCount_eq_specCorrect, hans, specCorrect_exact]
  have hs : scorePercent quiz.questions payload.answers = 100 := by
    rw [scorePercent, hc, Nat.max_eq_right hpos]
    exact scoreFloat_self _ hpos
  simp [submit_attempt, h, hs, hc]

/-- Witness for the amended claim C7 at a concrete store and quiz. -/
theorem perfect_answers_full_score_witness :
    (findQuizById wStore "q1" = some wQuiz ∧
      (∀ q ∈ wQuiz.questions,
        0 ≤ q.answer_index ∧ q.answer_index < (q.options.length : Int)) ∧
      wQuiz.questions ≠ [] ∧
      ([1] : List Int) = wQuiz.questions.map Question.answer_index) ∧
    (submit_attempt wStore "q1" ⟨"u", [1]⟩ 4).2 =
      Except.ok ⟨100, wQuiz.questions.length, wQuiz.questions.length⟩ :=
  ⟨⟨by decide, by decide, by decide, by decide⟩,
    perfect_answers_full_score wStore "q1" ⟨"u", [1]⟩ 4 wQuiz
      (by decide) (by decide) (by decide) (by decide)⟩

/-- Claim C8: grading a quiz with zero questions yields score_percent 0 for
any submitted answer list, and the divisor max(1, total_count) is positive,
so no division by zero occurs. -/
theorem zero_question_quiz_scores_zero
    (store : Store) (quiz_id : String) (payload : SubmitAttempt) (now : Nat)
    (quiz : Quiz) (h : findQuizById store quiz_id = some quiz)
    (hq : quiz.questions = []) :
    (submit_attempt store quiz_id payload now).2 = Except.ok ⟨0, 0, 0⟩ ∧
    0 < max 1 quiz.questions.length := by
  have hlen : quiz.questions.length = 0 := by rw [hq]; rfl
  have hc : correctCount quiz.questions payload.answers = 0 :=
    Nat.le_zero.mp (hlen ▸ correctCount_le quiz.questions payload.answers)
  constructor
  · simp [submit_attempt, h, scorePercent, scoreFloat_zero, hc, hlen]
  · have := Nat.le_max_left 1 quiz.questions.length
    omega

/-- Witness for claim C8 at the concrete zero-question quiz. -/
theorem zero_question_quiz_scores_zero_witness :
    (findQuizById emptyQuizStore "q0" = some emptyQuiz ∧ emptyQuiz.questions = []) ∧
    (submit_attempt emptyQuizStore "q0" ⟨"u", [3, 1]⟩ 9).2 = Except.ok ⟨0, 0, 0⟩ ∧
    0 < max 1 emptyQuiz.questions.length :=
  ⟨⟨by decide, by decide⟩,
    zero_question_quiz_scores_zero emptyQuizStore "q0" ⟨"u", [3, 1]⟩ 9 emptyQuiz
      (by decide) (by decide)⟩

theorem queryDocs_one_isEmpty {α : Type} (l : List α) (p : α → Bool) :
    (queryDocs l p 1).isEmpty = true ↔ l.filter p = [] := by
  rw [queryDocs, List.isEmpty_iff]
  cases h : l.filter p with
  | nil => simp
  | cons a rest => simp [List.take_succ_cons]

theorem ensure_track_cases (store : Store) (t : Track) :
    (store.tracks.filter (fun x => x.slug == t.slug) = [] ∧
      ensure_track store t = { store with tracks := store.tracks ++ [t] }) ∨
    (store.tracks.filter (fun x => x.slug == t.slug) ≠ [] ∧
      ensure_track store t = store) := by
  by_cases h : store.tracks.filter (fun x => x.slug == t.slug) = []
  · left
    refine ⟨h, ?_⟩
    rw [ensure_track]
    have hb : (queryDocs store.tracks (fun x => x.slug == t.slug) 1).isEmpty = true :=
      (queryDocs_one_isEmpty _ _).mpr h
    simp [hb, createDoc]
  · right
    refine ⟨h, ?_⟩
    rw [ensure_track]
    have hb : (queryDocs store.tracks (fun x => x.slug == t.slug) 1).isEmpty = false := by
      cases hb2 : (queryDocs store.tracks (fun x => x.slug == t.slug) 1).isEmpty
      · rfl
      · exact absurd ((queryDocs_one_isEmpty _ _).mp hb2) h
    simp [hb]

theorem ensure_track_count (store : Store) (t : Track) :
    trackSlugCount (ensure_track store t) t.slug =
      max 1 (trackSlugCount store t.slug) := by
  rcases ensure_track_cases store t with ⟨h, he⟩ | ⟨h, he⟩
  · have h0 : trackSlugCount store t.slug = 0 := by
      rw [trackSlugCount, List.countP_eq_length_filter, h]; rfl
    rw [he, trackSlugCount]
    show (store.tracks ++ [t]).countP (fun x => x.slug == t.slug) = _
    rw [List.countP_append, h0]
    have ht : (fun (x : Track) => x.slug == t.slug) t = true := by simp
    rw [trackSlugCount] at h0
    rw [h0]
    simp [List.countP_cons, ht]
  · have h1 : 0 < trackSlugCount store t.slug := by
      rw [trackSlugCount, List.countP_eq_length_filter]
      exact List.length_pos.mpr h
    rw [he, Nat.max_eq_right h1]

theorem ensure_track_idem (store : Store) (t : Track)
    (h : trackSlugCount store t.slug ≤ 1) :
    ensure_track (ensure_track store t) t = ensure_track store t ∧
    trackSlugCount (ensure_track store t) t.slug = 1 ∧
    ∀ n : Nat, (fun s => ensure_track s t)^[n + 1] store = ensure_track store t := by
  have hself : ensure_track (ensure_track store t) t = ensure_track store t := by
    have hpos : (ensure_track store t).tracks.filter (fun x => x.slug == t.slug) ≠ [] := by
      intro hnil
      have hc := ensure_track_count store t
      rw [trackSlugCount, List.countP_eq_length_filter, hnil] at hc
      have h1 : 1 ≤ max 1 (trackSlugCount store t.slug) := Nat.le_max_left _ _
      simp at hc
      omega
    rcases ensure_track_cases (ensure_track store t) t with ⟨h2, _⟩ | ⟨_, he⟩
    · exact absurd h2 hpos
    · exact he
  refine ⟨hself, ?_, ?_⟩
  · rw [ensure_track_count]
    rcases Nat.lt_or_ge (trackSlugCount store t.slug) 1 with h1 | h1
    · have h0 : trackSlugCount store t.slug = 0 := by omega
      rw [h0]; decide
    · have h0 : trackSlugCount store t.slug = 1 := by omega
      rw [h0]; decide
  · intro n
    induction n with
    | zero => rfl
    | succ m ih =>
        rw [Function.iterate_succ_apply', ih]
        exact hself

theorem ensure_lesson_cases (store : Store) (l : Lesson) :
    (store.lessons.filter (fun x => x.slug == l.slug) = [] ∧
      ensure_lesson store l = { store with lessons := store.lessons ++ [l] }) ∨
    (store.lessons.filter (fun x => x.slug == l.slug) ≠ [] ∧
      ensure_lesson store l = store) := by
  by_cases h : store.lessons.filter (fun x => x.slug == l.slug) = []
  · left
    refine ⟨h, ?_⟩
    rw [ensure_lesson]
    have hb : (queryDocs store.lessons (fun x => x.slug == l.slug) 1).isEmpty = true :=
      (queryDocs_one_isEmpty _ _).mpr h
    simp [hb, createDoc]
  · right
    refine ⟨h, ?_⟩
    rw [ensure_lesson]
    have hb : (queryDocs store.lessons (fun x => x.slug == l.slug) 1).isEmpty = false := by
      cases hb2 : (queryDocs store.lessons (fun x => x.slug == l.slug) 1).isEmpty
      · rfl
      · exact absurd ((queryDocs_one_isEmpty _ _).mp hb2) h
    simp [hb]

theorem ensure_lesson_count (store : Store) (l : Lesson) :
    lessonSlugCount (ensure_lesson store l) l.slug =
      max 1 (lessonSlugCount store l.slug) := by
  rcases ensure_lesson_cases store l with ⟨h, he⟩ | ⟨h, he⟩
  · have h0 : lessonSlugCount store l.slug = 0 := by
      rw [lessonSlugCount, List.countP_eq_length_filter, h]; rfl
    rw [he, lessonSlugCount]
    show (store.lessons ++ [l]).countP (fun x => x.slug == l.slug) = _
    rw [List.countP_append, h0]
    rw [lessonSlugCount] at h0
    rw [h0]
    simp [List.countP_cons]
  · have h1 : 0 < lessonSlugCount store l.slug := by
      rw [lessonSlugCount, List.countP_eq_length_filter]
      exact List.length_pos.mpr h
    rw [he, Nat.max_eq_right h1]

theorem ensure_lesson_idem (store : Store) (l : Lesson)
    (h : lessonSlugCount store l.slug ≤ 1) :
    ensure_lesson (ensure_lesson store l) l = ensure_lesson store l ∧
    lessonSlugCount (ensure_lesson store l) l.slug = 1 ∧
    ∀ n : Nat, (fun s => ensure_lesson s l)^[n + 1] store = ensure_lesson store l := by
  have hself : ensure_lesson (ensure_lesson store l) l = ensure_lesson store l := by
    have hpos : (ensure_lesson store l).lessons.filter (fun x => x.slug == l.slug) ≠ [] := by
      intro hnil
      have hc := ensure_lesson_count store l
      rw [lessonSlugCount, List.countP_eq_length_filter, hnil] at hc
      have h1 : 1 ≤ max 1 (lessonSlugCount store l.slug) := Nat.le_max_left _ _
      simp at hc
      omega
    rcases ensure_lesson_cases (ensure_lesson store l) l with ⟨h2, _⟩ | ⟨_, he⟩
    · exact absurd h2 hpos
    · exact he
  refine ⟨hself, ?_, ?_⟩
  · rw [ensure_lesson_count]
    rcases Nat.lt_or_ge (lessonSlugCount store l.slug) 1 with h1 | h1
    · have h0 : lessonSlugCount store l.slug = 0 := by omega
      rw [h0]; decide
    · have h0 : lessonSlugCount store l.slug = 1 := by omega
      rw [h0]; decide
  · intro n
    induction n with
    | zero => rfl
    | succ m ih =>
        rw [Function.iterate_succ_apply', ih]
        exact hself

theorem filter_map_snd {α β : Type} (l : List (α × β)) (p : β → Bool) :
    (l.map Prod.snd).filter p = (l.filter (fun pr => p pr.2)).map Prod.snd := by
  induction l with
  | nil => rfl
  | cons a rest ih =>
      by_cases h : p a.2
      · simp [List.filter_cons, h, ih]
      · simp [List.filter_cons, h, ih]

theorem ensure_quiz_cases (store : Store) (q : Quiz) :
    (store.quizzes.filter (fun pr => pr.2.lesson_slug == q.lesson_slug) = [] ∧
      ensure_quiz store q =
        { store with
            quizzes := store.quizzes ++ [(toString store.quizzes.length, q)] }) ∨
    (store.quizzes.filter (fun pr => pr.2.lesson_slug == q.lesson_slug) ≠ [] ∧
      ensure_quiz store q = store) := by
  have hfm : (store.quizzes.map Prod.snd).filter (fun x => x.lesson_slug == q.lesson_slug)
      = (store.quizzes.filter (fun pr => pr.2.lesson_slug == q.lesson_slug)).map Prod.snd :=
    filter_map_snd _ _
  by_cases h : store.quizzes.filter (fun pr => pr.2.lesson_slug == q.lesson_slug) = []
  · left
    refine ⟨h, ?_⟩
    rw [ensure_quiz]
    have hb : (queryDocs (store.quizzes.map Prod.snd)
        (fun x => x.lesson_slug == q.lesson_slug) 1).isEmpty = true := by
      rw [queryDocs_one_isEmpty, hfm, h]
      rfl
    simp [hb, createDoc]
  · right
    refine ⟨h, ?_⟩
    rw [ensure_quiz]
    have hb : (queryDocs (store.quizzes.map Prod.snd)
        (fun x => x.lesson_slug == q.lesson_slug) 1).isEmpty = false := by
      cases hb2 : (queryDocs (store.quizzes.map Prod.snd)
          (fun x => x.lesson_slug == q.lesson_slug) 1).isEmpty
      · rfl
      · have := (queryDocs_one_isEmpty _ _).mp hb2
        rw [hfm, List.map_eq_nil_iff] at this
        exact absurd this h
    simp [hb]

theorem ensure_quiz_count (store : Store) (q : Quiz) :
    quizLessonSlugCount (ensure_quiz store q) q.lesson_slug =
      max 1 (quizLessonSlugCount store q.lesson_slug) := by
  rcases ensure_quiz_cases store q with ⟨h, he⟩ | ⟨h, he⟩
  · have h0 : quizLessonSlugCount store q.lesson_slug = 0 := by
      rw [quizLessonSlugCount, List.countP_eq_length_filter, h]; rfl
    rw [he, quizLessonSlugCount]
    show (store.quizzes ++ [(toString store.quizzes.length, q)]).countP
      (fun pr => pr.2.lesson_slug == q.lesson_slug) = _
    rw [List.countP_append, h0]
    rw [quizLessonSlugCount] at h0
    rw [h0]
    simp [List.countP_cons]
  · have h1 : 0 < quizLessonSlugCount store q.lesson_slug := by
      rw [quizLessonSlugCount, List.countP_eq_length_filter]
      exact List.length_pos.mpr h
    rw [he, Nat.max_eq_right h1]

theorem ensure_quiz_idem (store : Store) (q : Quiz)
    (h : quizLessonSlugCount store q.lesson_slug ≤ 1) :
    ensure_quiz (ensure_quiz store q) q = ensure_quiz store q ∧
    quizLessonSlugCount (ensure_quiz store q) q.lesson_slug = 1 ∧
    ∀ n : Nat, (fun s => ensure_quiz s q)^[n + 1] store = ensure_quiz store q := by
  have hself : ensure_quiz (ensure_quiz store q) q = ensure_quiz store q := by
    have hpos : (ensure_quiz store q).quizzes.filter
        (fun pr => pr.2.lesson_slug == q.lesson_slug) ≠ [] := by
      intro hnil
      have hc := ensure_quiz_count store q
      rw [quizLessonSlugCount, List.countP_eq_length_filter, hnil] at hc
      have h1 : 1 ≤ max 1 (quizLessonSlugCount store q.lesson_slug) := Nat.le_max_left _ _
      simp at hc
      omega
    rcases ensure_quiz_cases (ensure_quiz store q) q with ⟨h2, _⟩ | ⟨_, he⟩
    · exact absurd h2 hpos
    · exact he
  refine ⟨hself, ?_, ?_⟩
  · rw [ensure_quiz_count]
    rcases Nat.lt_or_ge (quizLessonSlugCount store q.lesson_slug) 1 with h1 | h1
    · have h0 : quizLessonSlugCount store q.lesson_slug = 0 := by omega
      rw [h0]; decide
    · have h0 : quizLessonSlugCount store q.lesson_slug = 1 := by omega
      rw [h0]; decide
  · intro n
    induction n with
    | zero => rfl
    | succ m ih =>
        rw [Function.iterate_succ_apply', ih]
        exact hself

/-- Claim C4: every Seed Manager ensure helper — ensure_track keyed by
slug, ensure_lesson keyed by slug, ensure_quiz keyed by lesson_slug — is
idempotent: starting from any store holding at most one document for the
natural key (covering empty and partially seeded stores), a single ensure
leaves exactly one document for that key, a second invocation with the
same document is the identity, and so is every later one. -/
theorem ensure_idempotent
    (st sl sq : Store) (t : Track) (l : Lesson) (q : Quiz)
    (ht : trackSlugCount st t.slug ≤ 1)
    (hl : lessonSlugCount sl l.slug ≤ 1)
    (hq : quizLessonSlugCount sq q.lesson_slug ≤ 1) :
    (ensure_track (ensure_track st t) t = ensure_track st t ∧
      trackSlugCount (ensure_track st t) t.slug = 1 ∧
      ∀ n : Nat, (fun s => ensure_track s t)^[n + 1] st = ensure_track st t) ∧
    (ensure_lesson (ensure_lesson sl l) l = ensure_lesson sl l ∧
      lessonSlugCount (ensure_lesson sl l) l.slug = 1 ∧
      ∀ n : Nat, (fun s => ensure_lesson s l)^[n + 1] sl = ensure_lesson sl l) ∧
    (ensure_quiz (ensure_quiz sq q) q = ensure_quiz sq q ∧
      quizLessonSlugCount (ensure_quiz sq q) q.lesson_slug = 1 ∧
      ∀ n : Nat, (fun s => ensure_quiz s q)^[n + 1] sq = ensure_quiz sq q) :=
  ⟨ensure_track_idem st t ht, ensure_lesson_idem sl l hl, ensure_quiz_idem sq q hq⟩

/-- Concrete track used by the claim C4 witness. -/
def wTrack : Track :=
  ⟨"SECTION I", "section-i", "d", "beginner", ["sql"]⟩

/-- A second concrete track already present in the partially seeded store. -/
def wTrack2 : Track :=
  ⟨"SECTION II", "section-ii", "e", "intermediate", []⟩

/-- Concrete lesson used by the claim C4 witness. -/
def wSeedLesson : Lesson :=
  ⟨"section-i", "Unit 1", "unit-1-intro", "md", "easy", 1⟩

/-- Concrete quiz used by the claim C4 witness. -/
def wSeedQuiz : Quiz :=
  ⟨"unit-1-intro", "Unit 1 Quiz", []⟩

/-- Concrete partially seeded store used by the claim C4 witness: one
track present, no lessons, no quizzes. -/
def wTrackStore : Store :=
  ⟨[wTrack2], [], [], []⟩

/-- Witness for claim C4 at a concrete partially seeded store, with the
repeated-invocation conjuncts instantiated at two extra invocations. -/
theorem ensure_idempotent_witness :
    (trackSlugCount wTrackStore wTrack.slug ≤ 1 ∧
      lessonSlugCount wTrackStore wSeedLesson.slug ≤ 1 ∧
      quizLessonSlugCount wTrackStore wSeedQuiz.lesson_slug ≤ 1) ∧
    ensure_track (ensure_track wTrackStore wTrack) wTrack =
      ensure_track wTrackStore wTrack ∧
    trackSlugCount (ensure_track wTrackStore wTrack) wTrack.slug = 1 ∧
    (fun s => ensure_track s wTrack)^[3] wTrackStore = ensure_track wTrackStore wTrack ∧
    ensure_lesson (ensure_lesson wTrackStore wSeedLesson) wSeedLesson =
      ensure_lesson wTrackStore wSeedLesson ∧
    lessonSlugCount (ensure_lesson wTrackStore wSeedLesson) wSeedLesson.slug = 1 ∧
    (fun s => ensure_lesson s wSeedLesson)^[3] wTrackStore =
      ensure_lesson wTrackStore wSeedLesson ∧
    ensure_quiz (ensure_quiz wTrackStore wSeedQuiz) wSeedQuiz =
      ensure_quiz wTrackStore wSeedQuiz ∧
    quizLessonSlugCount (ensure_quiz wTrackStore wSeedQuiz) wSeedQuiz.lesson_slug = 1 ∧
    (fun s => ensure_quiz s wSeedQuiz)^[3] wTrackStore =
      ensure_quiz wTrackStore wSeedQuiz := by
  have H := ensure_idempotent wTrackStore wTrackStore wTrackStore wTrack wSeedLesson
    wSeedQuiz (by decide) (by decide) (by decide)
  exact ⟨⟨by decide, by decide, by decide⟩, H.1.1, H.1.2.1, H.1.2.2 2,
    H.2.1.1, H.2.1.2.1, H.2.1.2.2 2, H.2.2.1, H.2.2.2.1, H.2.2.2.2 2⟩

/-- Claim C9 (amended): when at most 200 stored lessons match the track
slug, the lessons listing returns exactly the matching Lesson documents (a
permutation of them), sorted in ascending order of their order field. -/
theorem list_lessons_sorted (store : Store) (slug : String)
    (hcap : (store.lessons.filter (fun l => l.track_slug == slug)).length ≤ 200) :
    (list_lessons store slug).Perm
      (store.lessons.filter (fun l => l.track_slug == slug)) ∧
    (list_lessons store slug).Pairwise (fun a b => a.order ≤ b.order) := by
  have htake : queryDocs store.lessons (fun l => l.track_slug == slug) 200 =
      store.lessons.filter (fun l => l.track_slug == slug) := by
    rw [queryDocs, List.take_of_length_le hcap]
  constructor
  · rw [list_lessons, htake]
    exact List.mergeSort_perm _ _
  · rw [list_lessons]
    have htrans : ∀ (a b c : Lesson), decide (a.order ≤ b.order) = true →
        decide (b.order ≤ c.order) = true → decide (a.order ≤ c.order) = true := by
      intro a b c hab hbc
      rw [decide_eq_true_eq] at hab hbc ⊢
      omega
    have htotal : ∀ (a b : Lesson),
        (decide (a.order ≤ b.order) || decide (b.order ≤ a.order)) = true := by
      intro a b
      rw [Bool.or_eq_true, decide_eq_true_eq, decide_eq_true_eq]
      omega
    have hp := List.sorted_mergeSort htrans htotal
      (queryDocs store.lessons (fun l => l.track_slug == slug) 200)
    exact hp.imp (fun hab => of_decide_eq_true hab)

/-- Concrete lesson used by the claim C9 witness. -/
def wLessonA : Lesson := ⟨"t", "A", "a", "c", "easy", 2⟩

/-- Second concrete lesson, with a smaller order value. -/
def wLessonB : Lesson := ⟨"t", "B", "b", "c", "easy", 1⟩

/-- Concrete store used by the claim C9 witness. -/
def wLessonStore : Store := ⟨[], [wLessonA, wLessonB], [], []⟩

/-- Witness for the amended claim C9 at a concrete two-lesson store. -/
theorem list_lessons_sorted_witness :
    (wLessonStore.lessons.filter (fun l => l.track_slug == "t")).length ≤ 200 ∧
    (list_lessons wLessonStore "t").Perm
      (wLessonStore.lessons.filter (fun l => l.track_slug == "t")) ∧
    (list_lessons wLessonStore "t").Pairwise (fun a b => a.order ≤ b.order) :=
  ⟨by decide, (list_lessons_sorted wLessonStore "t" (by decide)).1,
    (list_lessons_sorted wLessonStore "t" (by decide)).2⟩

/-- Lesson replicated past the retrieval cap in the C9 counterexample. -/
def wLessonC : Lesson := ⟨"t", "L", "l", "c", "easy", 0⟩

/-- Store with 201 lessons on one track, past the 200 retrieval cap. -/
def lessonCapStore : Store := ⟨[], List.replicate 201 wLessonC, [], []⟩

/-- Counterexample to claim C9 as stated: with 201 matching lessons the
listing returns only 200 documents, so it is not a permutation of the
stored matching lessons. -/
theorem list_lessons_cap_counterexample :
    (lessonCapStore.lessons.filter (fun l => l.track_slug == "t")).length = 201 ∧
    (list_lessons lessonCapStore "t").length = 200 ∧
    ¬ (list_lessons lessonCapStore "t").Perm
        (lessonCapStore.lessons.filter (fun l => l.track_slug == "t")) := by
  have hfil : lessonCapStore.lessons.filter (fun l => l.track_slug == "t") =
      List.replicate 201 wLessonC := by
    show (List.replicate 201 wLessonC).filter (fun l => l.track_slug == "t") = _
    rw [List.filter_replicate]
    simp [wLessonC]
  have hq : queryDocs lessonCapStore.lessons (fun l => l.track_slug == "t") 200 =
      List.replicate 200 wLessonC := by
    rw [queryDocs, hfil, List.take_replicate]
    rfl
  have hlen1 : (lessonCapStore.lessons.filter (fun l => l.track_slug == "t")).length
      = 201 := by
    rw [hfil, List.length_replicate]
  have hlen2 : (list_lessons lessonCapStore "t").length = 200 := by
    rw [list_lessons, hq, List.length_mergeSort, List.length_replicate]
  refine ⟨hlen1, hlen2, ?_⟩
  intro hperm
  have hl := hperm.length_eq
  rw [hlen1, hlen2] at hl
  exact absurd hl (by decide)

theorem dictLookup_cons (p : Option String × Int) (rest : ScoreDict) (q : Option String) :
    dictLookup (p :: rest) q = if p.1 == q then some p.2 else dictLookup rest q := by
  rw [dictLookup, dictLookup]
  by_cases h : (p.1 == q) = true
  · rw [@List.find?_cons_of_pos _ (fun r => r.1 == q) p rest h, if_pos h]
    rfl
  · rw [@List.find?_cons_of_neg _ (fun r => r.1 == q) p rest h, if_neg h]

theorem dictLookup_set (d : ScoreDict) (k : Option String) (v : Int) (q : Option String) :
    dictLookup (dictSet d k v) q = if q = k then some v else dictLookup d q := by
  induction d with
  | nil =>
      rw [dictSet, dictLookup_cons]
      by_cases h : q = k
      · subst h; simp
      · have hk : (k == q) = false := by
          rw [beq_eq_false_iff_ne]
          exact fun he => h he.symm
        simp [hk, h, dictLookup]
  | cons p rest ih =>
      rw [dictSet]
      by_cases hpk : (p.1 == k) = true
      · rw [if_pos hpk, dictLookup_cons, dictLookup_cons]
        have hp1 : p.1 = k := by simpa using hpk
        by_cases hq : q = k
        · subst hq; simp
        · have h1 : (k == q) = false := by
            rw [beq_eq_false_iff_ne]
            exact fun he => hq he.symm
          have h2 : (p.1 == q) = false := by rw [hp1]; exact h1
          simp [h1, h2, hq]
      · rw [if_neg hpk, dictLookup_cons, ih, dictLookup_cons]
        by_cases hq : q = k
        · subst hq
          simp [hpk]
        · simp [hq]

theorem dictLookup_progressStep (d : ScoreDict) (a : AttemptDoc) (q : Option String) :
    dictLookup (progressStep d a) q =
      if q = a.quiz_id then
        some (match dictLookup d a.quiz_id with
          | none => attemptScore a
          | some c => max c (attemptScore a))
      else dictLookup d q := by
  unfold progressStep
  cases hd : dictLookup d a.quiz_id with
  | none =>
      dsimp only
      rw [dictLookup_set]
  | some c =>
      dsimp only
      by_cases hgt : attemptScore a > c
      · rw [if_pos hgt, dictLookup_set]
        by_cases hq : q = a.quiz_id
        · subst hq
          rw [if_pos rfl, if_pos rfl, max_eq_right (le_of_lt hgt)]
        · rw [if_neg hq, if_neg hq]
      · rw [if_neg hgt]
        by_cases hq : q = a.quiz_id
        · subst hq
          rw [if_pos rfl, hd, max_eq_left (not_lt.mp hgt)]
        · rw [if_neg hq]

/-- Combination of a best score already in the dict with newly arriving
scores: the final best is the maximum of all of them. -/
def combineBest : Option Int → List Int → Option Int
  | o, [] => o
  | none, s :: l => some (l.foldl max s)
  | some c, l => some (l.foldl max c)

theorem combineBest_nil (o : Option Int) : combineBest o [] = o := by
  cases o <;> rfl

theorem combineBest_some (c : Int) (l : List Int) :
    combineBest (some c) l = some (l.foldl max c) := by
  cases l <;> rfl

theorem scoresFor_cons_pos (a : AttemptDoc) (rest : List AttemptDoc)
    (q : Option String) (h : (a.quiz_id == q) = true) :
    scoresFor (a :: rest) q = attemptScore a :: scoresFor rest q := by
  rw [scoresFor, @List.filter_cons_of_pos _ (fun x => x.quiz_id == q) a rest h,
    List.map_cons, scoresFor]

theorem scoresFor_cons_neg (a : AttemptDoc) (rest : List AttemptDoc)
    (q : Option String) (h : ¬ (a.quiz_id == q) = true) :
    scoresFor (a :: rest) q = scoresFor rest q := by
  rw [scoresFor, @List.filter_cons_of_neg _ (fun x => x.quiz_id == q) a rest h, scoresFor]

theorem foldl_progressStep_lookup (as : List AttemptDoc) :
    ∀ (d : ScoreDict) (q : Option String),
      dictLookup (as.foldl progressStep d) q =
        combineBest (dictLookup d q) (scoresFor as q) := by
  induction as with
  | nil =>
      intro d q
      rw [List.foldl_nil, scoresFor, List.filter_nil, List.map_nil, combineBest_nil]
  | cons a rest ih =>
      intro d q
      rw [List.foldl_cons, ih, dictLookup_progressStep]
      by_cases hq : a.quiz_id = q
      · subst hq
        rw [scoresFor_cons_pos a rest a.quiz_id (by simp), if_pos rfl]
        cases hd : dictLookup d a.quiz_id with
        | none =>
            rw [combineBest_some]
            rfl
        | some c =>
            rw [combineBest_some, combineBest_some, List.foldl_cons]
      · have hb : ¬ (a.quiz_id == q) = true := by simpa using hq
        rw [scoresFor_cons_neg a rest q hb, if_neg (fun h => hq h.symm)]

/-- Specification-side best score of one quiz identifier for claim C5: the
maximum of the scores of its attempts, none when it has no attempt. -/
def bestSpec (attempts : List AttemptDoc) (q : Option String) : Option Int :=
  (scoresFor attempts q).max?

theorem combineBest_none_max? (l : List Int) : combineBest none l = l.max? := by
  cases l <;> rfl

/-- Keys of the by_quiz dict, in insertion order. -/
def dictKeys (d : ScoreDict) : List (Option String) := d.map Prod.fst

theorem dictKeys_set (d : ScoreDict) (k : Option String) (v : Int) :
    dictKeys (dictSet d k v) =
      if k ∈ dictKeys d then dictKeys d else dictKeys d ++ [k] := by
  induction d with
  | nil => simp [dictSet, dictKeys]
  | cons p rest ih =>
      rw [dictSet]
      by_cases hpk : (p.1 == k) = true
      · have hp1 : p.1 = k := by simpa using hpk
        rw [if_pos hpk]
        have hmem : k ∈ dictKeys (p :: rest) := by
          rw [dictKeys, List.map_cons, hp1]
          exact List.mem_cons_self _ _
        rw [if_pos hmem, dictKeys, dictKeys, List.map_cons, List.map_cons, hp1]
      · have hp1 : p.1 ≠ k := by simpa using hpk
        rw [if_neg hpk, dictKeys, List.map_cons]
        have hrw : List.map Prod.fst (dictSet rest k v) = dictKeys (dictSet rest k v) := rfl
        by_cases hm : k ∈ dictKeys rest
        · have hm2 : k ∈ dictKeys (p :: rest) := by
            rw [dictKeys, List.map_cons]
            exact List.mem_cons_of_mem _ hm
          rw [hrw, ih, if_pos hm, if_pos hm2]
          rfl
        · have hm2 : k ∉ dictKeys (p :: rest) := by
            rw [dictKeys, List.map_cons]
            intro hx
            rcases List.mem_cons.mp hx with h1 | h1
            · exact hp1 h1.symm
            · exact hm h1
          rw [hrw, ih, if_neg hm, if_neg hm2]
          rfl

theorem nodup_dictKeys_set (d : ScoreDict) (k : Option String) (v : Int)
    (h : (dictKeys d).Nodup) : (dictKeys (dictSet d k v)).Nodup := by
  rw [dictKeys_set]
  by_cases hm : k ∈ dictKeys d
  · rw [if_pos hm]; exact h
  · rw [if_neg hm, List.nodup_append]
    refine ⟨h, List.nodup_singleton _, ?_⟩
    intro x hx hxk
    rw [List.mem_singleton] at hxk
    exact hm (hxk ▸ hx)

theorem nodup_dictKeys_progressStep (d : ScoreDict) (a : AttemptDoc)
    (h : (dictKeys d).Nodup) : (dictKeys (progressStep d a)).Nodup := by
  unfold progressStep
  cases dictLookup d a.quiz_id with
  | none => exact nodup_dictKeys_set _ _ _ h
  | some c =>
      dsimp only
      by_cases hgt : attemptScore a > c
      · rw [if_pos hgt]
        exact nodup_dictKeys_set _ _ _ h
      · rw [if_neg hgt]
        exact h

theorem nodup_dictKeys_foldl (as : List AttemptDoc) :
    ∀ d : ScoreDict, (dictKeys d).Nodup →
      (dictKeys (as.foldl progressStep d)).Nodup := by
  induction as with
  | nil => intro d h; exact h
  | cons a rest ih =>
      intro d h
      rw [List.foldl_cons]
      exact ih _ (nodup_dictKeys_progressStep d a h)

theorem dictLookup_eq_none_iff (d : ScoreDict) (q : Option String) :
    dictLookup d q = none ↔ q ∉ dictKeys d := by
  rw [dictLookup, Option.map_eq_none', List.find?_eq_none, dictKeys]
  constructor
  · intro h hq
    rcases List.mem_map.mp hq with ⟨x, hx, hx1⟩
    exact h x hx (by simp [hx1])
  · intro h x hx hb
    exact h (List.mem_map.mpr ⟨x, hx, by simpa using hb⟩)

theorem dictLookup_mem_nodup (d : ScoreDict) (k : Option String) (v : Int)
    (hnd : (dictKeys d).Nodup) (hm : (k, v) ∈ d) : dictLookup d k = some v := by
  induction d with
  | nil => cases hm
  | cons p rest ih =>
      rw [dictLookup_cons]
      rcases List.mem_cons.mp hm with heq | hm2
      · rw [← heq]
        simp
      · have hnd2 : (dictKeys rest).Nodup := by
          rw [dictKeys, List.map_cons] at hnd
          exact (List.nodup_cons.mp hnd).2
        have hp : p.1 ∉ dictKeys rest := by
          rw [dictKeys, List.map_cons] at hnd
          exact (List.nodup_cons.mp hnd).1
        have hk : k ∈ dictKeys rest := List.mem_map.mpr ⟨(k, v), hm2, rfl⟩
        have hne : (p.1 == k) = false := by
          rw [beq_eq_false_iff_ne]
          intro he
          exact hp (he ▸ hk)
        simp only [hne, Bool.false_eq_true, if_false]
        exact ih hnd2 hm2

theorem dictLookup_nil (q : Option String) : dictLookup [] q = none := rfl

/-- Completion predicate of claim C5: a quiz identifier counts when the
best of its scores reaches the fixed passing threshold 70. -/
def passesAt (attempts : List AttemptDoc) (q : Option String) : Bool :=
  match bestSpec attempts q with
  | some s => decide (70 ≤ s)
  | none => false

theorem bestSpec_eq_none_iff (as : List AttemptDoc) (q : Option String) :
    bestSpec as q = none ↔ q ∉ as.map AttemptDoc.quiz_id := by
  rw [bestSpec, List.max?_eq_none_iff, scoresFor, List.map_eq_nil_iff,
    List.filter_eq_nil_iff]
  constructor
  · intro h hq
    rcases List.mem_map.mp hq with ⟨x, hx, hx1⟩
    exact h x hx (by simp [hx1])
  · intro h x hx hb
    exact h (List.mem_map.mpr ⟨x, hx, by simpa using hb⟩)

theorem foldl_progressStep_bestSpec (as : List AttemptDoc) (q : Option String) :
    dictLookup (as.foldl progressStep []) q = bestSpec as q := by
  rw [foldl_progressStep_lookup, dictLookup_nil, combineBest_none_max?, bestSpec]

/-- Claim C5 (amended): with at most 1000 stored attempts for the email,
get_progress maps each quiz identifier with an attempt to the maximum score
among the attempts of that quiz, counts as completed exactly the distinct
quiz identifiers whose best score reaches 70, and yields zero completions
and an empty mapping for a learner with no attempts. -/
theorem get_progress_best_scores (store : Store) (email : String)
    (hcap : (attemptsFor store email).length ≤ 1000) :
    (∀ q : Option String,
      dictLookup (get_progress store email).best_scores q =
        bestSpec (attemptsFor store email) q) ∧
    (get_progress store email).quizzes_completed =
      (((attemptsFor store email).map AttemptDoc.quiz_id).dedup).countP
        (passesAt (attemptsFor store email)) ∧
    (attemptsFor store email = [] → get_progress store email = ⟨0, []⟩) := by
  have hq : queryDocs store.attempts (fun a => a.user_email == email) 1000 =
      attemptsFor store email :=
    List.take_of_length_le hcap
  have hGP : get_progress store email =
      { quizzes_completed :=
          (((attemptsFor store email).foldl progressStep []).map Prod.snd).countP
            (fun s => decide (70 ≤ s)),
        best_scores := (attemptsFor store email).foldl progressStep [] } := by
    rw [get_progress, hq]
  have hnd : (dictKeys ((attemptsFor store email).foldl progressStep [])).Nodup :=
    nodup_dictKeys_foldl _ [] List.nodup_nil
  refine ⟨?_, ?_, ?_⟩
  · intro q
    rw [hGP]
    exact foldl_progressStep_bestSpec _ q
  · rw [hGP]
    show (((attemptsFor store email).foldl progressStep []).map Prod.snd).countP
        (fun s => decide (70 ≤ s)) = _
    rw [List.countP_map]
    have hpoint : ∀ p ∈ (attemptsFor store email).foldl progressStep [],
        ((fun s => decide (70 ≤ s)) ∘ Prod.snd) p = true ↔
          ((fun r => passesAt (attemptsFor store email) r.1) p) = true := by
      intro p hp
      have hmem : (p.1, p.2) ∈ (attemptsFor store email).foldl progressStep [] := by
        rw [Prod.mk.eta]
        exact hp
      have hlk : dictLookup ((attemptsFor store email).foldl progressStep []) p.1 =
          some p.2 :=
        dictLookup_mem_nodup _ _ _ hnd hmem
      have hbs : bestSpec (attemptsFor store email) p.1 = some p.2 := by
        rw [← foldl_progressStep_bestSpec]
        exact hlk
      show decide (70 ≤ p.2) = true ↔ passesAt (attemptsFor store email) p.1 = true
      rw [passesAt, hbs]
    rw [List.countP_congr hpoint]
    have hperm : (dictKeys ((attemptsFor store email).foldl progressStep [])).Perm
        (((attemptsFor store email).map AttemptDoc.quiz_id).dedup) := by
      rw [List.perm_ext_iff_of_nodup hnd (List.nodup_dedup _)]
      intro x
      rw [List.mem_dedup]
      constructor
      · intro hx
        by_contra hnx
        have h2 : bestSpec (attemptsFor store email) x = none :=
          (bestSpec_eq_none_iff _ _).mpr hnx
        rw [← foldl_progressStep_bestSpec, dictLookup_eq_none_iff] at h2
        exact h2 hx
      · intro hx
        by_contra hnx
        have h1 : dictLookup ((attemptsFor store email).foldl progressStep []) x =
            none := (dictLookup_eq_none_iff _ _).mpr hnx
        rw [foldl_progressStep_bestSpec] at h1
        exact (bestSpec_eq_none_iff _ _).mp h1 hx
    calc ((attemptsFor store email).foldl progressStep []).countP
          (fun r => passesAt (attemptsFor store email) r.1)
        = (dictKeys ((attemptsFor store email).foldl progressStep [])).countP
            (passesAt (attemptsFor store email)) := by
          rw [dictKeys, List.countP_map]
          rfl
      _ = (((attemptsFor store email).map AttemptDoc.quiz_id).dedup).countP
            (passesAt (attemptsFor store email)) :=
          hperm.countP_eq _
  · intro hnil
    rw [hGP, hnil]
    rfl

/-- Attempt document shorthand used by the progress witnesses. -/
def wAtt (e : String) (q : String) (s : Int) : AttemptDoc :=
  ⟨e, some q, [], some s, none⟩

/-- Concrete store used by the claim C5 witness: learner u has best 90 on
qa (passing) and best 50 on qb (not passing); v has a separate attempt. -/
def wProgressStore : Store :=
  ⟨[], [], [], [wAtt "u" "qa" 40, wAtt "u" "qa" 90, wAtt "u" "qb" 50, wAtt "v" "qa" 100]⟩

/-- Witness for the amended claim C5 at a concrete store. -/
theorem get_progress_best_scores_witness :
    (attemptsFor wProgressStore "u").length ≤ 1000 ∧
    dictLookup (get_progress wProgressStore "u").best_scores (some "qa") =
      bestSpec (attemptsFor wProgressStore "u") (some "qa") ∧
    dictLookup (get_progress wProgressStore "u").best_scores (some "qb") =
      bestSpec (attemptsFor wProgressStore "u") (some "qb") ∧
    (get_progress wProgressStore "u").quizzes_completed =
      (((attemptsFor wProgressStore "u").map AttemptDoc.quiz_id).dedup).countP
        (passesAt (attemptsFor wProgressStore "u")) :=
  ⟨by decide,
    (get_progress_best_scores wProgressStore "u" (by decide)).1 (some "qa"),
    (get_progress_best_scores wProgressStore "u" (by decide)).1 (some "qb"),
    (get_progress_best_scores wProgressStore "u" (by decide)).2.1⟩

/-- Attempt on quiz q by learner u with the given score, used by the cap
counterexample. -/
def capAttempt (s : Int) : AttemptDoc := ⟨"u", some "q", [], some s, none⟩

/-- Store holding 1001 attempts of learner u on one quiz: 1000 attempts
scoring 0 followed by one scoring 100, past the 1000 retrieval cap. -/
def capStore : Store :=
  ⟨[], [], [], List.replicate 1000 (capAttempt 0) ++ [capAttempt 100]⟩

theorem capStore_filter_email :
    capStore.attempts.filter (fun a => a.user_email == "u") = capStore.attempts := by
  rw [List.filter_eq_self]
  intro a ha
  rcases List.mem_append.mp ha with h | h
  · rw [List.eq_of_mem_replicate h]
    decide
  · rw [List.mem_singleton.mp h]
    decide

theorem capStore_fold :
    (List.replicate 1000 (capAttempt 0)).foldl progressStep [] = [(some "q", 0)] := by
  have hstep0 : progressStep [] (capAttempt 0) = [(some "q", 0)] := by decide
  have hstep : progressStep [(some "q", 0)] (capAttempt 0) = [(some "q", 0)] := by decide
  have haux : ∀ n, (List.replicate n (capAttempt 0)).foldl progressStep
      [(some "q", 0)] = [(some "q", 0)] := by
    intro n
    induction n with
    | zero => rfl
    | succ m ih => rw [List.replicate_succ, List.foldl_cons, hstep, ih]
  calc (List.replicate 1000 (capAttempt 0)).foldl progressStep []
      = (capAttempt 0 :: List.replicate 999 (capAttempt 0)).foldl progressStep [] := by
        rw [show (1000 : Nat) = 999 + 1 from rfl, List.replicate_succ]
    _ = (List.replicate 999 (capAttempt 0)).foldl progressStep [(some "q", 0)] := by
        rw [List.foldl_cons, hstep0]
    _ = [(some "q", 0)] := haux 999

theorem capStore_best_scores :
    (get_progress capStore "u").best_scores = [(some "q", 0)] := by
  have hq2 : queryDocs capStore.attempts (fun a => a.user_email == "u") 1000 =
      List.replicate 1000 (capAttempt 0) := by
    rw [queryDocs, capStore_filter_email]
    have h := List.take_left (List.replicate 1000 (capAttempt 0)) [capAttempt 100]
    rw [List.length_replicate] at h
    exact h
  simp only [get_progress]
  rw [hq2, capStore_fold]

theorem capStore_bestSpec :
    bestSpec (attemptsFor capStore "u") (some "q") = some 100 := by
  have hfa : attemptsFor capStore "u" = capStore.attempts := capStore_filter_email
  have hf2 : capStore.attempts.filter (fun a => a.quiz_id == some "q") =
      capStore.attempts := by
    rw [List.filter_eq_self]
    intro a ha
    rcases List.mem_append.mp ha with h | h
    · rw [List.eq_of_mem_replicate h]
      decide
    · rw [List.mem_singleton.mp h]
      decide
  have hsc : scoresFor (attemptsFor capStore "u") (some "q") =
      List.replicate 1000 (0 : Int) ++ [100] := by
    rw [hfa, scoresFor, hf2]
    show List.map attemptScore
        (List.replicate 1000 (capAttempt 0) ++ [capAttempt 100]) = _
    rw [List.map_append, List.map_replicate]
    rfl
  have hfm : ∀ n, List.foldl max (0 : Int) (List.replicate n (0 : Int)) = 0 := by
    intro n
    induction n with
    | zero => rfl
    | succ m ih =>
        rw [List.replicate_succ, List.foldl_cons, max_self, ih]
  rw [bestSpec, hsc]
  have hshape : List.replicate 1000 (0 : Int) ++ [100] =
      0 :: (List.replicate 999 (0 : Int) ++ [100]) := by
    rw [show (1000 : Nat) = 999 + 1 from rfl, List.replicate_succ, List.cons_append]
  rw [hshape]
  show some (List.foldl max (0 : Int) (List.replicate 999 (0 : Int) ++ [100])) = some 100
  rw [List.foldl_append, hfm 999]
  rfl

/-- Counterexample to claim C5 as stated: with 1001 stored attempts for the
email (past the 1000 retrieval cap), the reported best score for quiz q is
0 while the true maximum over the stored attempts of q is 100. -/
theorem get_progress_cap_counterexample :
    dictLookup (get_progress capStore "u").best_scores (some "q") = some 0 ∧
    bestSpec (attemptsFor capStore "u") (some "q") = some 100 ∧
    dictLookup (get_progress capStore "u").best_scores (some "q") ≠
      bestSpec (attemptsFor capStore "u") (some "q") := by
  have h1 : dictLookup (get_progress capStore "u").best_scores (some "q") = some 0 := by
    rw [capStore_best_scores]
    rfl
  refine ⟨h1, capStore_bestSpec, ?_⟩
  rw [h1, capStore_bestSpec]
  decide

/-- Normalization replacing an absent score field by an explicit 0, the
value get_progress reads for it. -/
def normalizeScore (a : AttemptDoc) : AttemptDoc :=
  ⟨a.user_email, a.quiz_id, a.answers, some (attemptScore a), a.created_at⟩

theorem get_progress_eq (store : Store) (email : String)
    (hcap : (attemptsFor store email).length ≤ 1000) :
    get_progress store email =
      { quizzes_completed :=
          (((attemptsFor store email).foldl progressStep []).map Prod.snd).countP
            (fun s => decide (70 ≤ s)),
        best_scores := (attemptsFor store email).foldl progressStep [] } := by
  have hq : queryDocs store.attempts (fun a => a.user_email == email) 1000 =
      attemptsFor store email :=
    List.take_of_length_le hcap
  rw [get_progress, hq]

theorem attemptsFor_append (store : Store) (email : String) (a : AttemptDoc)
    (he : a.user_email = email) :
    attemptsFor { store with attempts := store.attempts ++ [a] } email =
      attemptsFor store email ++ [a] := by
  show (store.attempts ++ [a]).filter (fun x => x.user_email == email) =
    store.attempts.filter (fun x => x.user_email == email) ++ [a]
  rw [List.filter_append]
  congr 1
  simp [List.filter_cons, he]

theorem dictSet_append_of_not_mem (d : ScoreDict) (k : Option String) (v : Int)
    (h : k ∉ dictKeys d) : dictSet d k v = d ++ [(k, v)] := by
  induction d with
  | nil => rfl
  | cons p rest ih =>
      rw [dictKeys, List.map_cons, List.mem_cons] at h
      push_neg at h
      rw [dictSet, if_neg (by simp only [beq_iff_eq]; exact fun hpk => h.1 hpk.symm),
        ih (by rw [dictKeys]; exact h.2)]
      rfl

theorem bestSpec_nonneg (as : List AttemptDoc) (q : Option String) (c : Int)
    (hnn : ∀ b ∈ as, 0 ≤ attemptScore b)
    (h : bestSpec as q = some c) : 0 ≤ c := by
  rw [bestSpec] at h
  have hc : c ∈ scoresFor as q := List.max?_mem (fun a b => max_choice a b) h
  rcases List.mem_map.mp hc with ⟨b, hb, hbc⟩
  exact hbc ▸ hnn b (List.mem_of_mem_filter hb)

/-- Claim C10: a stored attempt document lacking a score field is read as
score 0 by the progress aggregation: its score is read as the 0 default,
which is below the 70 passing threshold; appended to the stored attempts
(within the retrieval cap, all stored scores nonnegative) it establishes a
best score of 0 for its quiz identifier when none existed, never raises an
existing best score, and leaves quizzes_completed unchanged; and replacing
every absent score by an explicit 0 leaves get_progress unchanged. -/
theorem missing_score_treated_as_zero (store : Store) (email : String) (a : AttemptDoc)
    (ha : a.score = none) (he : a.user_email = email)
    (hnn : ∀ b ∈ store.attempts, 0 ≤ attemptScore b)
    (hcap : (attemptsFor store email).length + 1 ≤ 1000) :
    attemptScore a = 0 ∧
    ¬ (70 : Int) ≤ attemptScore a ∧
    (bestSpec (attemptsFor store email) a.quiz_id = none →
      dictLookup (get_progress { store with attempts := store.attempts ++ [a] }
        email).best_scores a.quiz_id = some 0) ∧
    (∀ c : Int, bestSpec (attemptsFor store email) a.quiz_id = some c →
      dictLookup (get_progress { store with attempts := store.attempts ++ [a] }
        email).best_scores a.quiz_id = some c) ∧
    (get_progress { store with attempts := store.attempts ++ [a] }
        email).quizzes_completed = (get_progress store email).quizzes_completed ∧
    get_progress { store with attempts := store.attempts.map normalizeScore } email =
      get_progress store email := by
  have ha0 : attemptScore a = 0 := by rw [attemptScore, ha]; rfl
  have hcap0 : (attemptsFor store email).length ≤ 1000 := by omega
  have hAF : attemptsFor { store with attempts := store.attempts ++ [a] } email =
      attemptsFor store email ++ [a] := attemptsFor_append store email a he
  have hcap1 : (attemptsFor { store with attempts := store.attempts ++ [a] }
      email).length ≤ 1000 := by
    rw [hAF, List.length_append]
    simpa using hcap
  have hGP1 := get_progress_eq { store with attempts := store.attempts ++ [a] } email hcap1
  have hGP0 := get_progress_eq store email hcap0
  have hfold : (attemptsFor { store with attempts := store.attempts ++ [a] }
        email).foldl progressStep [] =
      progressStep ((attemptsFor store email).foldl progressStep []) a := by
    rw [hAF, List.foldl_append, List.foldl_cons, List.foldl_nil]
  have hlk : dictLookup ((attemptsFor store email).foldl progressStep []) a.quiz_id =
      bestSpec (attemptsFor store email) a.quiz_id :=
    foldl_progressStep_bestSpec _ _
  have hnnAS : ∀ b ∈ attemptsFor store email, 0 ≤ attemptScore b := fun b hb =>
    hnn b (List.mem_of_mem_filter hb)
  refine ⟨ha0, by rw [ha0]; decide, ?_, ?_, ?_, ?_⟩
  · intro hb
    rw [hGP1]
    show dictLookup ((attemptsFor { store with attempts := store.attempts ++ [a] }
        email).foldl progressStep []) a.quiz_id = some 0
    rw [hfold, dictLookup_progressStep, if_pos rfl, hlk, hb, ha0]
  · intro c hb
    have hc : 0 ≤ c := bestSpec_nonneg (attemptsFor store email) a.quiz_id c hnnAS hb
    rw [hGP1]
    show dictLookup ((attemptsFor { store with attempts := store.attempts ++ [a] }
        email).foldl progressStep []) a.quiz_id = some c
    rw [hfold, dictLookup_progressStep, if_pos rfl, hlk, hb, ha0]
    show some (max c 0) = some c
    rw [max_eq_left hc]
  · rw [hGP1, hGP0]
    show (((attemptsFor { store with attempts := store.attempts ++ [a] }
        email).foldl progressStep []).map Prod.snd).countP (fun s => decide (70 ≤ s)) =
      (((attemptsFor store email).foldl progressStep []).map Prod.snd).countP
        (fun s => decide (70 ≤ s))
    rw [hfold]
    cases hd : dictLookup ((attemptsFor store email).foldl progressStep []) a.quiz_id with
    | none =>
        have hstep : ∀ D : ScoreDict, dictLookup D a.quiz_id = none →
            progressStep D a = D ++ [(a.quiz_id, 0)] := by
          intro D hD
          unfold progressStep
          rw [hD, ha0]
          exact dictSet_append_of_not_mem _ _ _ ((dictLookup_eq_none_iff _ _).mp hD)
        rw [hstep _ hd, List.map_append, List.countP_append]
        simp
    | some c =>
        have hc : 0 ≤ c := bestSpec_nonneg (attemptsFor store email) a.quiz_id c hnnAS
          (by rw [← hlk]; exact hd)
        have hstep : ∀ D : ScoreDict, dictLookup D a.quiz_id = some c →
            progressStep D a = D := by
          intro D hD
          unfold progressStep
          rw [hD, ha0]
          show (if (0 : Int) > c then dictSet D a.quiz_id 0 else D) = D
          rw [if_neg (by omega)]
        rw [hstep _ hd]
  · have h1 : queryDocs (store.attempts.map normalizeScore)
        (fun x => x.user_email == email) 1000 =
        (queryDocs store.attempts (fun x => x.user_email == email) 1000).map
          normalizeScore := by
      rw [queryDocs, queryDocs, List.filter_map, List.map_take]
      rfl
    simp only [get_progress]
    rw [h1, List.foldl_map]
    have h2 : (fun (d : ScoreDict) x => progressStep d (normalizeScore x)) =
        progressStep := by
      funext d x
      rfl
    rw [h2]

/-- Attempt document with an absent score field, for the C10 witness. -/
def wMissingAttempt : AttemptDoc := ⟨"u", some "q", [], none, none⟩

/-- Concrete store holding a prior scored attempt on the same quiz, for
the C10 witness. -/
def wMissingStore : Store := ⟨[], [], [], [wAtt "u" "q" 50]⟩

/-- Witness for claim C10 at a concrete store: the scoreless attempt reads
as 0, fails the 70 threshold, does not raise the existing best of 50, and
leaves the completion count unchanged. -/
theorem missing_score_treated_as_zero_witness :
    (wMissingAttempt.score = none ∧ wMissingAttempt.user_email = "u" ∧
      0 ≤ attemptScore (wAtt "u" "q" 50) ∧
      (attemptsFor wMissingStore "u").length + 1 ≤ 1000) ∧
    attemptScore wMissingAttempt = 0 ∧
    ¬ (70 : Int) ≤ attemptScore wMissingAttempt ∧
    bestSpec (attemptsFor wMissingStore "u") wMissingAttempt.quiz_id = some 50 ∧
    dictLookup (get_progress
        { wMissingStore with attempts := wMissingStore.attempts ++ [wMissingAttempt] }
        "u").best_scores wMissingAttempt.quiz_id = some 50 ∧
    (get_progress
        { wMissingStore with attempts := wMissingStore.attempts ++ [wMissingAttempt] }
        "u").quizzes_completed = (get_progress wMissingStore "u").quizzes_completed ∧
    get_progress
        { wMissingStore with attempts := wMissingStore.attempts.map normalizeScore }
        "u" = get_progress wMissingStore "u" := by
  have H := missing_score_treated_as_zero wMissingStore "u" wMissingAttempt
    (by decide) (by decide) (by decide) (by decide)
  exact ⟨⟨by decide, by decide, by decide, by decide⟩, H.1, H.2.1,
    by decide, H.2.2.2.1 50 (by decide), H.2.2.2.2.1, H.2.2.2.2.2⟩

/-- State of the fallible store adapter during seeding: the documents, a
failure oracle deciding whether the k-th store call raises, and the count
of store calls made so far. -/
structure SeedWorld where
  store : Store
  failAt : Nat → Bool
  tick : Nat

/-- Seeding computations: state threading plus the exceptions raised by
the store adapter, caught only by the try/except of seed_data. -/
abbrev SeedM (α : Type) := ExceptT String (StateM SeedWorld) α

/-- Modelled from the spec: the adapter is assumed reliable but fallible,
so every store call may raise; the oracle decides which ones do. -/
def checkFail : SeedM Unit := do
  let w ← get
  set { w with tick := w.tick + 1 }
  if w.failAt w.tick then
    throw "store failure"
  else
    pure ()

/-- Modelled from the spec: get_documents on the track collection, through
the fallible adapter. -/
def getTracksF (pred : Track → Bool) (lim : Nat) : SeedM (List Track) := do
  checkFail
  let w ← get
  pure (queryDocs w.store.tracks pred lim)

/-- Modelled from the spec: create_document on the track collection. -/
def createTrackF (t : Track) : SeedM Unit := do
  checkFail
  modify fun w =>
    { w with store := { w.store with tracks := createDoc w.store.tracks t } }

/-- Modelled from the spec: get_documents on the lesson collection. -/
def getLessonsF (pred : Lesson → Bool) (lim : Nat) : SeedM (List Lesson) := do
  checkFail
  let w ← get
  pure (queryDocs w.store.lessons pred lim)

/-- Modelled from the spec: create_document on the lesson collection. -/
def createLessonF (l : Lesson) : SeedM Unit := do
  checkFail
  modify fun w =>
    { w with store := { w.store with lessons := createDoc w.store.lessons l } }

/-- Modelled from the spec: get_documents on the quiz collection. Stored
quizzes carry a store-assigned id; the seeded one here is the count. -/
def getQuizzesF (pred : Quiz → Bool) (lim : Nat) : SeedM (List Quiz) := do
  checkFail
  let w ← get
  pure (queryDocs (w.store.quizzes.map Prod.snd) pred lim)

/-- Modelled from the spec: create_document on the quiz collection. -/
def createQuizF (q : Quiz) : SeedM Unit := do
  checkFail
  modify fun w =>
    let s := w.store
    let qs := createDoc s.quizzes (toString s.quizzes.length, q)
    { w with store := { s with quizzes := qs } }

/-- ensure_track of src/main.py lines 78-81 over the fallible adapter. -/
def ensureTrackF (track : Track) : SeedM Unit := do
  let existing ← getTracksF (fun t => t.slug == track.slug) 1
  if existing.isEmpty then
    createTrackF track

/-- ensure_lesson of src/main.py lines 83-86 over the fallible adapter. -/
def ensureLessonF (lesson : Lesson) : SeedM Unit := do
  let existing ← getLessonsF (fun l => l.slug == lesson.slug) 1
  if existing.isEmpty then
    createLessonF lesson

/-- ensure_quiz of src/main.py lines 88-91 over the fallible adapter. -/
def ensureQuizF (quiz : Quiz) : SeedM Unit := do
  let existing ← getQuizzesF (fun q => q.lesson_slug == quiz.lesson_slug) 1
  if existing.isEmpty then
    createQuizF quiz

/-- Track SECTION I seeded at startup (src/main.py lines 99-105). -/
def sectionITrack : Track :=
  ⟨"SECTION I", "section-i",
    "Foundations: DB systems, relational model, and SQL fundamentals.",
    "beginner", ["database", "relational", "sql"]⟩

/-- Track SECTION II seeded at startup (src/main.py lines 106-112). -/
def sectionIITrack : Track :=
  ⟨"SECTION II", "section-ii",
    "Design, indexing, transactions, concurrency, and recovery.",
    "intermediate", ["design", "indexing", "transactions"]⟩

/-- Markdown of UNIT 1 (src/main.py lines 115-137). -/
def unit1_md : String :=
  "# UNIT 1: Introduction to Database Systems (07)\n\n" ++
  "## Overview of Database System Applications and Purpose\n" ++
  "- Why databases: persistence, concurrency, integrity, security, and scalability.\n" ++
  "- Applications: banking, e-commerce, healthcare, IoT, analytics.\n\n" ++
  "## Views of Data and Database Languages\n" ++
  "- Physical, logical, and view levels.\n" ++
  "- Languages: DDL, DML, DCL, TCL.\n\n" ++
  "## Relational Concepts and Design\n" ++
  "- Relations, attributes, tuples, schemas, constraints.\n" ++
  "- Integrity constraints: domain, key, referential.\n\n" ++
  "## Data Storage and Querying\n" ++
  "- Files, pages, buffer manager; query processing & optimization (overview).\n\n" ++
  "## Transaction Management & Architecture\n" ++
  "- ACID, logs, recovery, concurrency (high level).\n\n" ++
  "## Data Modeling with ER Model\n" ++
  "- Entities, attributes, relationships; cardinality and participation.\n" ++
  "- Constraints and keys: super, candidate, primary; weak entities.\n" ++
  "- Codd\x27s rules (relational model principles).\n\n" ++
  "## Extended ER: Generalization & Aggregation\n" ++
  "- ISA hierarchies and aggregation.\n" ++
  "- Mapping ER to tables.\n"

/-- Markdown of UNIT 2 (src/main.py lines 139-145). -/
def unit2_md : String :=
  "# UNIT 2: Relational Data Model, Relational Algebra, and Calculus (07)\n\n" ++
  "## Structure & Schema\n- Relations, schemas, keys, foreign keys.\n\n" ++
  "## Relational Algebra\n- Selection (σ), Projection (π), Union (∪), Difference (−), Cartesian Product (×), Join (⨝).\n" ++
  "- Extended ops: rename, intersection, division, theta-join, natural join, outer joins.\n\n" ++
  "## Relational Calculus\n- Tuple Relational Calculus (TRC) and Domain Relational Calculus (DRC).\n"

/-- Markdown of UNIT 3 (src/main.py lines 147-156). -/
def unit3_md : String :=
  "# UNIT 3: Introduction to SQL (07)\n\n" ++
  "## SQL Overview\n- Role in DBMS, ANSI/ISO standards.\n\n" ++
  "## DDL & Basic Query Structure\n- CREATE, ALTER, DROP; SELECT-FROM-WHERE; ORDER BY; DISTINCT.\n\n" ++
  "## Operators & NULLs\n- Comparison, logical ops; set ops (UNION, INTERSECT, EXCEPT).\n- NULL semantics: IS NULL, COALESCE, three-valued logic.\n\n" ++
  "## Aggregates & Subqueries\n- COUNT, SUM, AVG, MIN, MAX; GROUP BY, HAVING; nested queries and IN/ANY/ALL/EXISTS.\n\n" ++
  "## Modifying Data\n- INSERT, UPDATE, DELETE; transactions and COMMIT/ROLLBACK.\n\n" ++
  "## Intermediate SQL\n- Joins, views, integrity constraints, data types, schema definition, authorization.\n\n" ++
  "## Advanced SQL\n- Embedding/integration (JDBC/ODBC), stored procedures, functions, triggers.\n"

/-- Markdown of UNIT 4 (src/main.py lines 159-165). -/
def unit4_md : String :=
  "# UNIT 4: Relational Database Design (05)\n\n" ++
  "## Normalization & Good Design\n- Anomalies and decomposition goals.\n\n" ++
  "## Functional Dependencies & Normal Forms\n- 1NF, 2NF, 3NF, BCNF; synthesis vs. decomposition.\n\n" ++
  "## Multivalued Dependencies & 4NF\n- Rationale and design impact.\n\n" ++
  "## Design Process\n- Requirements → ER/Relational model → Normalization → Physical design.\n"

/-- Markdown of UNIT 5 (src/main.py lines 167-173). -/
def unit5_md : String :=
  "# UNIT 5: Indexing & Hashing (06)\n\n" ++
  "## Basics\n- Access paths, cost model, clustered vs. unclustered.\n\n" ++
  "## Ordered Indices\n- B-Tree, B+Tree structures; search, insert, delete.\n\n" ++
  "## Hashing\n- Static vs. dynamic hashing; extendible/linear hashing.\n\n" ++
  "## Others\n- Bitmap indices; multi-key access; defining indexes in SQL.\n"

/-- Markdown of UNIT 6 (src/main.py lines 175-180). -/
def unit6_md : String :=
  "# UNIT 6: Transaction Processing (06)\n\n" ++
  "## Concepts & Models\n- Transactions, atomicity, durability.\n\n" ++
  "## Isolation & ACID\n- Phenomena, isolation levels.\n\n" ++
  "## Storage, Schedules, Serializability, Recoverability\n- Conflict/view serializability; recoverable schedules.\n"

/-- Markdown of UNIT 7 (src/main.py lines 182-186). -/
def unit7_md : String :=
  "# UNIT 7: Concurrency Control & Recovery (07)\n\n" ++
  "## Concurrency Control\n- Lock-based protocols, deadlocks, multiple granularity, timestamp ordering.\n\n" ++
  "## Recovery Systems\n- Failure types, logging, ARIES-style recovery (high level), buffer management.\n"

/-- Lessons seeded at startup (src/main.py lines 189-197). -/
def seedLessons : List Lesson :=
  [⟨"section-i", "UNIT 1: Introduction to Database Systems", "unit-1-intro-db",
      unit1_md, "easy", 1⟩,
    ⟨"section-i", "UNIT 2: Relational Model, Algebra & Calculus", "unit-2-relational",
      unit2_md, "easy", 2⟩,
    ⟨"section-i", "UNIT 3: Introduction to SQL", "unit-3-sql", unit3_md, "easy", 3⟩,
    ⟨"section-ii", "UNIT 4: Relational Database Design", "unit-4-design",
      unit4_md, "intermediate", 1⟩,
    ⟨"section-ii", "UNIT 5: Indexing & Hashing", "unit-5-indexing",
      unit5_md, "intermediate", 2⟩,
    ⟨"section-ii", "UNIT 6: Transaction Processing", "unit-6-transactions",
      unit6_md, "intermediate", 3⟩,
    ⟨"section-ii", "UNIT 7: Concurrency Control & Recovery", "unit-7-concurrency",
      unit7_md, "intermediate", 4⟩]

/-- Quizzes seeded at startup (src/main.py lines 203-225). -/
def seedQuizzes : List Quiz :=
  [⟨"unit-1-intro-db", "Unit 1 Quiz",
      [⟨"Which property is NOT part of ACID?",
        ["Atomicity", "Consistency", "Isolation", "Distribution"], 3,
        some "Durability is the D; Distribution is not an ACID property."⟩]⟩,
    ⟨"unit-2-relational", "Unit 2 Quiz",
      [⟨"Which operator in Relational Algebra filters rows?",
        ["Projection (π)", "Selection (σ)", "Union (∪)", "Join (⨝)"], 1, none⟩]⟩,
    ⟨"unit-3-sql", "Unit 3 Quiz",
      [⟨"Which SQL clause groups rows for aggregation?",
        ["WHERE", "GROUP BY", "ORDER BY", "HAVING"], 1, none⟩]⟩,
    ⟨"unit-4-design", "Unit 4 Quiz",
      [⟨"BCNF eliminates which issue most strongly?",
        ["Update anomalies", "Lost updates", "Phantoms", "Buffer thrashing"], 0, none⟩]⟩,
    ⟨"unit-5-indexing", "Unit 5 Quiz",
      [⟨"A B+Tree stores keys in which nodes?",
        ["Leaves only", "Internal only", "Both internal and leaves", "Neither"], 2, none⟩]⟩,
    ⟨"unit-6-transactions", "Unit 6 Quiz",
      [⟨"Read committed prevents which phenomenon?",
        ["Dirty reads", "Non-repeatable reads", "Phantoms", "Deadlocks"], 0, none⟩]⟩,
    ⟨"unit-7-concurrency", "Unit 7 Quiz",
      [⟨"Which protocol can cause deadlocks?",
        ["Timestamp ordering", "Two-phase locking", "Optimistic CC", "MVCC"], 1, none⟩]⟩]

/-- Body of seed_data (src/main.py lines 95-228): the statements inside
the try block, in source order. -/
def seedDataBody : SeedM Unit := do
  ensureTrackF sectionITrack
  ensureTrackF sectionIITrack
  for ls in seedLessons do
    ensureLessonF ls
  for q in seedQuizzes do
    ensureQuizF q

/-- Handler seed_data with its try/except (src/main.py lines 95-232): any
exception from the body is caught and logged, so the startup caller
observes success either way; documents created before a failure remain. -/
def seed_data (w : SeedWorld) : SeedWorld × Except String Unit :=
  match (ExceptT.run seedDataBody).run w with
  | (Except.ok _, w2) => (w2, Except.ok ())
  | (Except.error _, w2) => (w2, Except.ok ())

/-- World whose store adapter fails on the very first call. -/
def wFailWorld : SeedWorld := ⟨⟨[], [], [], []⟩, fun _ => true, 0⟩

/-- Claim C6: every failure raised by the store adapter during startup
seeding is caught and swallowed by seed_data: for every store state and
failure oracle the caller observes success, and a failing adapter call
does raise inside the body, so the catch is what absorbs it. -/
theorem seed_data_never_fails :
    (∀ w : SeedWorld, (seed_data w).2 = Except.ok ()) ∧
    ((ExceptT.run seedDataBody).run wFailWorld).1 = Except.error "store failure" := by
  constructor
  · intro w
    unfold seed_data
    rcases h : (ExceptT.run seedDataBody).run w with ⟨r, w2⟩
    cases r <;> rfl
  · rfl
